import Mathlib

/-!
Verification development for the Stelliberty native control plane.

This file shallowly embeds the Rust sources of the repository (the privileged
service's heartbeat monitor and Clash process manager, the hub's IPC connection
pool and retry logic, the runtime-parameter injectors, the subscription parser
front end, and the configuration validator's cycle check) as executable Lean
definitions, and proves or refutes the specification's claims about them.

Conventions used throughout:
* `std::time::Instant` values are modelled as natural numbers (seconds or
  milliseconds, as each module uses them); `Duration` subtraction `now - earlier`
  is truncated natural subtraction, which agrees with Rust because instants are
  monotone.
* Fallible Rust functions returning `Result<T, E>` become `Except` or `Option`.
* Effects on shared state (`Mutex`, `RwLock` cells) are modelled by explicit
  state passing; nondeterministic scheduling or iteration order (e.g. of a
  `HashMap`) becomes an explicit list parameter constrained to be a permutation
  of the keys.
-/

/-! ## Heartbeat monitor (stelliberty_service/src/service/runner.rs, handler.rs)

The service keeps `last_heartbeat: Instant` behind a lock; a monitor task ticks
every 30 s.  State of the service relevant to the heartbeat protocol. -/

/-- State of the privileged service as seen by the heartbeat monitor:
the recorded `last_heartbeat` instant, the monitor's own `last_check_time`,
whether the Clash core child process is running, and whether the service itself
is running. Times are in seconds. -/
structure SvcState where
  lastHeartbeat : Nat
  lastCheck : Nat
  coreRunning : Bool
  serviceRunning : Bool
deriving Repr, DecidableEq

/-- `HEARTBEAT_TIMEOUT` from runner.rs (70 seconds). -/
def HEARTBEAT_TIMEOUT : Nat := 70

/-- `CHECK_INTERVAL` from runner.rs (30 seconds). -/
def CHECK_INTERVAL : Nat := 30

/-- Sleep-detection threshold from runner.rs: a gap of more than 60 s between
two monitor wakeups is interpreted as host sleep. -/
def SLEEP_GAP : Nat := 60

/-- One iteration of the heartbeat monitor loop in `run_service`
(runner.rs lines 132–171 / 284–323), executed at instant `now`:
record the check time; if the gap since the previous check exceeds 60 s,
reset the heartbeat timestamp and do nothing else (sleep/wake detection);
otherwise, if more than 70 s elapsed since the last heartbeat, stop the Clash
core (`manager.stop()`, which leaves the service itself running) and reset the
heartbeat timestamp. -/
def monitorTick (s : SvcState) (now : Nat) : SvcState :=
  let checkElapsed := now - s.lastCheck
  let s1 : SvcState := { s with lastCheck := now }
  if SLEEP_GAP < checkElapsed then
    { s1 with lastHeartbeat := now }
  else if HEARTBEAT_TIMEOUT < now - s1.lastHeartbeat then
    { s1 with coreRunning := false, lastHeartbeat := now }
  else
    s1

/-- The `IpcCommand::Heartbeat` handler (handler.rs lines 107–111): it only
overwrites `last_heartbeat` with `Instant::now()`; it does not touch the core
process or the service. -/
def heartbeatCmd (s : SvcState) (now : Nat) : SvcState :=
  { s with lastHeartbeat := now }

/-- Events the heartbeat subsystem reacts to: a monitor tick or a received
`Heartbeat` command, each at some instant. -/
inductive SvcEvent where
  | tick (now : Nat)
  | heartbeat (now : Nat)
deriving Repr, DecidableEq

/-- Apply one event to the service state. -/
def svcStep (s : SvcState) (e : SvcEvent) : SvcState :=
  match e with
  | .tick now => monitorTick s now
  | .heartbeat now => heartbeatCmd s now

/-- Run a sequence of events. -/
def svcRun (s : SvcState) (es : List SvcEvent) : SvcState :=
  es.foldl svcStep s

/-- Number of events in a trace at which the core transitions from running to
stopped (i.e. the core process is actually killed). -/
def stopTransitions (s : SvcState) : List SvcEvent → Nat
  | [] => 0
  | e :: es =>
    let s1 := svcStep s e
    (if s.coreRunning && !s1.coreRunning then 1 else 0) + stopTransitions s1 es

/-! ## IPC connection pool (hub/src/clash/network/handlers.rs)

`PooledConnection::is_valid` probes the connection with a non-blocking
one-byte `try_read`. -/

/-- Possible outcomes of the non-blocking `try_read` probe in
`PooledConnection::is_valid` (handlers.rs lines 264–277). -/
inductive Probe where
  | readZero
  | readData
  | wouldBlock
  | otherErr
deriving Repr, DecidableEq

/-- `PooledConnection::is_valid`: `Ok(0)` means the peer closed the
connection; `Ok(n)` with data is still considered valid; `WouldBlock` is the
healthy case; any other error invalidates the connection. -/
def isValidProbe : Probe → Bool
  | .readZero => false
  | .readData => true
  | .wouldBlock => true
  | .otherErr => false

/-- `MAX_POOL_SIZE` (handlers.rs line 251). -/
def MAX_POOL_SIZE : Nat := 30

/-- `IDLE_TIMEOUT_MS` (handlers.rs line 252). -/
def IDLE_TIMEOUT_MS : Nat := 35000

/-- `MAX_CONCURRENT_CONNECTIONS` (handlers.rs line 253). -/
def MAX_CONCURRENT_CONNECTIONS : Nat := 20

/-- `MAX_CONNECT_RETRIES` and `RETRY_DELAY_MS` from
`acquire_connection_with_retry!` (handlers.rs lines 371–372). -/
def MAX_CONNECT_RETRIES : Nat := 3

def RETRY_DELAY_MS : Nat := 50

/-- An entry of the FIFO connection pool: the connection (identified by a
number standing for the OS handle) and its `last_used` instant in
milliseconds. -/
structure PoolEntry where
  conn : Nat
  lastUsed : Nat
deriving Repr, DecidableEq

/-- The check applied to a popped pool entry in `acquire_connection_with_retry!`
(handlers.rs lines 346–348) and in the health check (lines 316–319):
`last_used.elapsed() < IDLE_TIMEOUT_MS && is_valid()`.  `probeOf` gives the
outcome the probe of each connection would observe at this moment. -/
def entryUsable (probeOf : Nat → Probe) (now : Nat) (e : PoolEntry) : Bool :=
  decide (now - e.lastUsed < IDLE_TIMEOUT_MS) && isValidProbe (probeOf e.conn)

/-- Step 1 of `acquire_connection_with_retry!` (lines 341–360): repeatedly pop
the front of the deque; return the first entry that is neither expired nor
invalid, together with the remaining pool; dropped entries are discarded.
`none` means the pool was exhausted. -/
def acquireFromPool (probeOf : Nat → Probe) (now : Nat) :
    List PoolEntry → Option (PoolEntry × List PoolEntry)
  | [] => none
  | e :: rest =>
    if entryUsable probeOf now e then some (e, rest)
    else acquireFromPool probeOf now rest

/-- The final connect error message built at handlers.rs lines 393–398. -/
def connectFailMsg (conType : String) (e : String) : String :=
  conType ++ " 连接失败（已重试 " ++ toString MAX_CONNECT_RETRIES ++ " 次）：" ++ e

/-- Step 3 of `acquire_connection_with_retry!` (lines 374–400): attempt to
connect up to `MAX_CONNECT_RETRIES` times, sleeping `RETRY_DELAY_MS` between
attempts.  `outcomes` is the sequence of results the successive
`connect_named_pipe` / `connect_unix_socket` calls would produce;
`retriesLeft` counts the attempts still allowed after the current one
(initially `MAX_CONNECT_RETRIES - 1 = 2`).  An empty outcome list is a
modelling artifact and never reached when `outcomes` has ≥ 3 elements. -/
def connectLoop (conType : String) : List (Except String Nat) → Nat → Except String Nat
  | [], _ => .error (connectFailMsg conType "")
  | .ok c :: _, _ => .ok c
  | .error _ :: rest, n + 1 => connectLoop conType rest n
  | .error e :: _, 0 => .error (connectFailMsg conType e)

/-- `acquire_connection` (handlers.rs lines 406–421): first try the pool; if it
is exhausted, take a permit of `CONNECTION_SEMAPHORE` and connect with retry.
Returns the result, the pool left behind, and whether a semaphore permit was
taken for a fresh connection. -/
def acquireConnection (probeOf : Nat → Probe) (now : Nat) (pool : List PoolEntry)
    (outcomes : List (Except String Nat)) :
    Except String Nat × List PoolEntry × Bool :=
  match acquireFromPool probeOf now pool with
  | some (e, rest) => (.ok e.conn, rest, false)
  | none => (connectLoop "Unix Socket" outcomes (MAX_CONNECT_RETRIES - 1), [], true)

/-- `release_connection` via `release_connection_impl!` (handlers.rs lines
424–449): if the pool holds fewer than `MAX_POOL_SIZE` connections, push the
connection to the back with `last_used = Instant::now()`; otherwise drop it. -/
def releaseConnection (pool : List PoolEntry) (c : Nat) (now : Nat) : List PoolEntry :=
  if pool.length < MAX_POOL_SIZE then pool ++ [⟨c, now⟩] else pool

/-- The body of one health-check round (handlers.rs lines 316–319): retain the
entries that are neither expired nor invalid. -/
def healthCheckRound (probeOf : Nat → Probe) (now : Nat) (pool : List PoolEntry) :
    List PoolEntry :=
  pool.filter (fun e =>
    decide (now - e.lastUsed < IDLE_TIMEOUT_MS) && isValidProbe (probeOf e.conn))

/-- The operations that mutate the global `IPC_CONNECTION_POOL`. -/
inductive PoolEvent where
  | acq (probeOf : Nat → Probe) (now : Nat) (outcomes : List (Except String Nat))
  | rel (c : Nat) (now : Nat)
  | health (probeOf : Nat → Probe) (now : Nat)
  | cleanup

/-- Effect of each pool operation on the pool contents
(`cleanup` is `cleanup_ipc_connection_pool`, which clears the deque). -/
def poolStep (pool : List PoolEntry) : PoolEvent → List PoolEntry
  | .acq probeOf now outcomes => (acquireConnection probeOf now pool outcomes).2.1
  | .rel c now => releaseConnection pool c now
  | .health probeOf now => healthCheckRound probeOf now pool
  | .cleanup => []

/-- Run a sequence of pool operations starting from the empty pool the
`Lazy` initialiser creates. -/
def poolRun (evts : List PoolEvent) : List PoolEntry :=
  evts.foldl poolStep []

/-- The `CONNECTION_SEMAPHORE` of `MAX_CONCURRENT_CONNECTIONS` permits, modelled
by the number of permits currently held.  `Semaphore::acquire().await` only
proceeds when a permit is free, so a `take` event has no effect while all
permits are held (the caller is still suspended). -/
def semStep (held : Nat) : Bool → Nat
  | true => if held < MAX_CONCURRENT_CONNECTIONS then held + 1 else held
  | false => held - 1

/-- Run a sequence of semaphore events (`true` = a caller acquires a permit,
`false` = a permit is dropped) from the freshly created semaphore. -/
def semRun (evts : List Bool) : Nat :=
  evts.foldl semStep 0

/-! ## One-shot IPC request retry policy (handlers.rs lines 113–248) -/

/-- `str::contains` for string patterns: `hasSub s pat` is true when `pat`
occurs as a contiguous substring of `s`. -/
def hasSub (s pat : String) : Bool :=
  s.toList.tails.any (fun t => pat.toList.isPrefixOf t)

/-- `is_ipc_not_ready_error` (handlers.rs lines 114–124). -/
def isIpcNotReadyError (errorMsg : String) : Bool :=
  hasSub errorMsg "系统找不到指定的文件"
    || hasSub errorMsg "os error 2"
    || hasSub errorMsg "拒绝连接"
    || hasSub errorMsg "os error 111"
    || hasSub errorMsg "os error 61"
    || hasSub errorMsg "Connection refused"

/-- `should_retry_on_error` (handlers.rs lines 127–134). -/
def shouldRetryOnError (errorMsg : String) (attempt maxRetries : Nat) : Bool :=
  decide (attempt < maxRetries)
    && !isIpcNotReadyError errorMsg
    && (hasSub errorMsg "os error"
      || hasSub errorMsg "系统找不到指定的文件"
      || hasSub errorMsg "Connection refused"
      || hasSub errorMsg "Broken pipe")

/-- `MAX_RETRIES` of `handle_ipc_request_with_retry` (handlers.rs line 151). -/
def MAX_RETRIES : Nat := 2

/-- What one iteration of `handle_ipc_request_with_retry` observes:
`acquire_connection` failed with a message, or the request completed with a
status code and body (the connection is then released), or
`request_with_connection` failed with a message. -/
inductive IpcAttempt where
  | acqFail (msg : String)
  | respOk (status : Nat) (body : String)
  | reqFail (msg : String)
deriving Repr, DecidableEq

/-- The `IpcResponse` signal sent back to Dart. -/
structure IpcResponseSig where
  statusCode : Nat
  body : String
  isSuccessful : Bool
  errorMessage : Option String
deriving Repr, DecidableEq

/-- `handle_ipc_request_with_retry` (handlers.rs lines 144–248), starting at
iteration `attempt`, driven by the successive outcomes: returns the signal the
function sends and the number of times the connection pool was flushed
(`cleanup_ipc_connection_pool`), which is exactly the number of retries.
`none` is the modelling artifact for an outcome list shorter than the number
of loop iterations; the Rust loop always returns within `MAX_RETRIES + 1`
iterations. -/
def runIpcRequest : Nat → List IpcAttempt → Option (IpcResponseSig × Nat)
  | _, [] => none
  | attempt, a :: rest =>
    match a with
    | .acqFail m =>
      some (⟨0, "", false, some ("获取连接失败：" ++ m)⟩, 0)
    | .respOk status body =>
      some (⟨status, body, true, none⟩, 0)
    | .reqFail m =>
      if shouldRetryOnError m attempt MAX_RETRIES then
        (runIpcRequest (attempt + 1) rest).map (fun r => (r.1, r.2 + 1))
      else
        some (⟨0, "", false, some ("IPC 请求失败：" ++ m)⟩, 0)

/-! ## Subscription parser front end
(hub/src/molecules/subscription_management/parser.rs)

Character classes.  Rust's `char::is_whitespace` and `char::is_alphanumeric`
use the full Unicode tables; here they are modelled exactly on ASCII and on the
CJK Unified Ideographs block (U+4E00–U+9FFF, all of category Lo, hence
alphanumeric in Rust), the only non-ASCII characters this development
evaluates them on; all other code points are modelled as neither. -/

/-- Restriction of Rust `char::is_whitespace` (ASCII whitespace; the non-ASCII
Unicode space characters play no role here). -/
def rustIsWhitespace (c : Char) : Bool :=
  c = ' ' || c = '\t' || c = '\n' || c = '\r' || c = '\x0b' || c = '\x0c'

/-- Restriction of Rust `char::is_alphanumeric`: ASCII letters and digits, plus
the CJK Unified Ideographs block (category Lo, alphabetic in Unicode). -/
def rustIsAlphanumeric (c : Char) : Bool :=
  c.isAlpha || c.isDigit || (0x4E00 ≤ c.toNat && c.toNat ≤ 0x9FFF)

/-- `content.replace(|c: char| c.is_whitespace(), "")` — remove every
whitespace character (parser.rs lines 32 and 102). -/
def stripWs (s : String) : String :=
  String.mk (s.toList.filter (fun c => !rustIsWhitespace c))

/-- Rust `str::trim` — strip leading and trailing whitespace. -/
def rustTrim (s : String) : String :=
  String.mk (((s.toList.dropWhile rustIsWhitespace).reverse.dropWhile
    rustIsWhitespace).reverse)

/-- `ProxyParser::is_base64` (parser.rs lines 100–109): after removing all
whitespace, the remaining byte length must exceed 50 and every character must
satisfy `is_alphanumeric` or be `+`, `/` or `=`.  (`String::len` in Rust is the
UTF-8 byte length.) -/
def isBase64 (content : String) : Bool :=
  let clean := stripWs content
  decide (50 < clean.utf8ByteSize)
    && clean.toList.all (fun c => rustIsAlphanumeric c || c = '+' || c = '/' || c = '=')

/-- Value of a standard-alphabet Base64 digit. -/
def b64Val (c : Char) : Option Nat :=
  if 'A' ≤ c ∧ c ≤ 'Z' then some (c.toNat - 'A'.toNat)
  else if 'a' ≤ c ∧ c ≤ 'z' then some (c.toNat - 'a'.toNat + 26)
  else if '0' ≤ c ∧ c ≤ '9' then some (c.toNat - '0'.toNat + 52)
  else if c = '+' then some 62
  else if c = '/' then some 63
  else none

/-- Decoder for `base64::engine::general_purpose::STANDARD.decode`: canonical
padding is required (so the input length must be a multiple of 4), `=` may only
appear in the final block, and unused trailing bits must be zero. Returns the
decoded bytes. -/
def b64Decode : List Char → Option (List Nat)
  | [] => some []
  | c1 :: c2 :: c3 :: c4 :: rest =>
    match b64Val c1, b64Val c2 with
    | some v1, some v2 =>
      if rest.isEmpty then
        if c3 = '=' then
          if c4 = '=' then
            if v2 % 16 = 0 then some [v1 * 4 + v2 / 16] else none
          else none
        else
          match b64Val c3 with
          | some v3 =>
            if c4 = '=' then
              if v3 % 4 = 0 then
                some [v1 * 4 + v2 / 16, (v2 % 16) * 16 + v3 / 4]
              else none
            else
              match b64Val c4 with
              | some v4 =>
                some [v1 * 4 + v2 / 16, (v2 % 16) * 16 + v3 / 4, (v3 % 4) * 64 + v4]
              | none => none
          | none => none
      else
        match b64Val c3, b64Val c4 with
        | some v3, some v4 =>
          (b64Decode rest).map
            (fun bs =>
              (v1 * 4 + v2 / 16) :: ((v2 % 16) * 16 + v3 / 4) :: ((v3 % 4) * 64 + v4) :: bs)
        | _, _ => none
    | _, _ => none
  | _ => none

/-- Strict UTF-8 decoder over bytes (the check behind Rust
`String::from_utf8`): returns the decoded characters, or `none` when the bytes
are not valid UTF-8. -/
def utf8DecodeAux : List Nat → Nat → Option (List Char)
  | _, 0 => none
  | [], _ + 1 => some []
  | b :: bs, fuel + 1 =>
    if b < 0x80 then
      (utf8DecodeAux bs fuel).map (fun cs => Char.ofNat b :: cs)
    else if 0xC2 ≤ b ∧ b ≤ 0xDF then
      match bs with
      | b2 :: bs2 =>
        if 0x80 ≤ b2 ∧ b2 ≤ 0xBF then
          (utf8DecodeAux bs2 fuel).map
            (fun cs => Char.ofNat ((b - 0xC0) * 64 + (b2 - 0x80)) :: cs)
        else none
      | _ => none
    else if 0xE0 ≤ b ∧ b ≤ 0xEF then
      match bs with
      | b2 :: b3 :: bs3 =>
        let lo2 := if b = 0xE0 then 0xA0 else 0x80
        let hi2 := if b = 0xED then 0x9F else 0xBF
        if (lo2 ≤ b2 ∧ b2 ≤ hi2) ∧ (0x80 ≤ b3 ∧ b3 ≤ 0xBF) then
          (utf8DecodeAux bs3 fuel).map
            (fun cs =>
              Char.ofNat ((b - 0xE0) * 4096 + (b2 - 0x80) * 64 + (b3 - 0x80)) :: cs)
        else none
      | _ => none
    else if 0xF0 ≤ b ∧ b ≤ 0xF4 then
      match bs with
      | b2 :: b3 :: b4 :: bs4 =>
        let lo2 := if b = 0xF0 then 0x90 else 0x80
        let hi2 := if b = 0xF4 then 0x8F else 0xBF
        if (lo2 ≤ b2 ∧ b2 ≤ hi2) ∧ (0x80 ≤ b3 ∧ b3 ≤ 0xBF) ∧ (0x80 ≤ b4 ∧ b4 ≤ 0xBF) then
          (utf8DecodeAux bs4 fuel).map
            (fun cs =>
              Char.ofNat
                ((b - 0xF0) * 262144 + (b2 - 0x80) * 4096 + (b3 - 0x80) * 64 + (b4 - 0x80)) :: cs)
        else none
      | _ => none
    else none

/-- Decode a byte list as UTF-8 (fuel is the list length, enough since every
step consumes at least one byte). -/
def utf8Decode (bs : List Nat) : Option (List Char) :=
  utf8DecodeAux bs (bs.length + 1)

/-- The Base64 pre-processing step of `ProxyParser::parse_subscription`
(parser.rs lines 26–51): trim; if the trimmed body passes `is_base64`, strip
whitespace and attempt a Base64 decode followed by a UTF-8 check; the body is
replaced by the decoded text only when both succeed, and kept otherwise. -/
def decodeBody (content : String) : String :=
  let c := rustTrim content
  if isBase64 c then
    let clean := stripWs c
    match b64Decode clean.toList with
    | some bytes =>
      match utf8Decode bytes with
      | some chars => String.mk chars
      | none => c
    | none => c
  else c

/-- `ProxyParser::is_yaml_config` (parser.rs lines 83–97): the content must
parse as YAML — decided by the external `serde_yaml_ng` parser, passed in as
the oracle `yamlOk` — and contain the substrings `proxies:` and one of
`proxy-groups:` / `rules:`. -/
def isYamlConfig (yamlOk : String → Bool) (content : String) : Bool :=
  if !yamlOk content then false
  else hasSub content "proxies:"
    && (hasSub content "proxy-groups:" || hasSub content "rules:")

/-- The first two stages of `ProxyParser::parse_subscription` (lines 25–57):
decode the body, and if the decoded body is a full YAML configuration, return
it unchanged (`return Ok(decoded)`).  `none` means the parser falls through to
the proxy-link stages (lines 59–78), which are outside the scope of the claims
settled here. -/
def parseSubYamlStage (yamlOk : String → Bool) (content : String) : Option String :=
  let decoded := decodeBody content
  if isYamlConfig yamlOk decoded then some decoded else none

/-! ## URL percent-decoding (parser.rs lines 658–661) -/

/-- Hexadecimal digit value. -/
def hexVal (c : Char) : Option Nat :=
  if '0' ≤ c ∧ c ≤ '9' then some (c.toNat - '0'.toNat)
  else if 'a' ≤ c ∧ c ≤ 'f' then some (c.toNat - 'a'.toNat + 10)
  else if 'A' ≤ c ∧ c ≤ 'F' then some (c.toNat - 'A'.toNat + 10)
  else none

/-- UTF-8 encoding of a single character. -/
def utf8Bytes (c : Char) : List Nat :=
  let n := c.toNat
  if n < 0x80 then [n]
  else if n < 0x800 then [0xC0 + n / 64, 0x80 + n % 64]
  else if n < 0x10000 then [0xE0 + n / 4096, 0x80 + n / 64 % 64, 0x80 + n % 64]
  else [0xF0 + n / 262144, 0x80 + n / 4096 % 64, 0x80 + n / 64 % 64, 0x80 + n % 64]

/-- `urlencoding::decode_binary`: a `%` followed by two hex digits becomes one
byte; any other character (including a malformed `%` sequence) is copied
through as its UTF-8 bytes. -/
def pctDecode : List Char → List Nat
  | [] => []
  | '%' :: h1 :: h2 :: rest =>
    match hexVal h1, hexVal h2 with
    | some a, some b => (a * 16 + b) :: pctDecode rest
    | _, _ => utf8Bytes '%' ++ pctDecode (h1 :: h2 :: rest)
  | c :: rest => utf8Bytes c ++ pctDecode rest

/-- `ProxyParser::url_decode` (parser.rs lines 659–661):
`urlencoding::decode(s).unwrap_or_default().to_string()` — percent-decode, then
require the result to be valid UTF-8; on a UTF-8 error the `Err` is silently
replaced by the default (empty) string. -/
def urlDecode (s : String) : String :=
  match utf8Decode (pctDecode s.toList) with
  | some chars => String.mk chars
  | none => ""

/-- The node name computed by `ProxyParser::parse_vless` (parser.rs line 193):
`Self::url_decode(url.fragment().unwrap_or("VLESS"))`. -/
def vlessName (fragment : Option String) : String :=
  urlDecode (fragment.getD "VLESS")

/-! ## YAML values and `serde_yaml_ng::Mapping` operations

`serde_yaml_ng::Value` trees.  Mappings are modelled as insertion-ordered
association lists with `String` keys: both injectors and the validator only
ever insert, remove or look up string keys, and the YAML parser rejects
duplicate keys, so entries with non-string keys are inert and are represented
here (up to renaming) by string-keyed entries that no operation touches. -/

inductive Yval where
  | str (s : String)
  | boolv (b : Bool)
  | num (n : Int)
  | nullv
  | seq (xs : List Yval)
  | map (xs : List (String × Yval))

/-- An insertion-ordered mapping (`serde_yaml_ng::Mapping`, backed by an
`IndexMap`). -/
abbrev Ymap := List (String × Yval)

/-- `Mapping::get` — the value at a key (keys are unique in any mapping
produced by the YAML parser, so first match suffices). -/
def getY (k : String) : Ymap → Option Yval
  | [] => none
  | (k', v) :: t => if k' = k then some v else getY k t

/-- The keys of a mapping in order. -/
def keysY (m : Ymap) : List String :=
  m.map Prod.fst

/-- `Mapping::contains_key`. -/
def containsKeyY (k : String) (m : Ymap) : Bool :=
  (getY k m).isSome

/-- `Mapping::insert` (`IndexMap` semantics): overwrite the value in place if
the key is present, otherwise append the pair at the back. -/
def insertY (k : String) (v : Yval) : Ymap → Ymap
  | [] => [(k, v)]
  | (k', v') :: t => if k' = k then (k, v) :: t else (k', v') :: insertY k v t

/-- `Mapping::remove` (`IndexMap::swap_remove` semantics): remove the entry at
the key, moving the last entry of the map into the vacated position. If the
key is absent the map is unchanged. -/
def removeSwapY (k : String) : Ymap → Ymap
  | [] => []
  | (k', v') :: t =>
    if k' = k then
      match t.getLast? with
      | none => []
      | some z => z :: t.dropLast
    else (k', v') :: removeSwapY k t

/-- `Value::as_str`. -/
def Yval.asStr : Yval → Option String
  | .str s => some s
  | _ => none

/-- `Value::as_mapping`. -/
def Yval.asMapping : Yval → Option Ymap
  | .map m => some m
  | _ => none

/-! ## Runtime-parameter injector, molecules profile
(hub/src/molecules/clash_config/injector.rs)

The Unix debug build is modelled (`cfg(unix)`, `cfg(debug_assertions)`); the
platform branch only changes the endpoint key and the literal path, which play
no role in the properties proved here. -/

/-- The fields of `RuntimeConfigParams` as used by
molecules/clash_config/injector.rs (the struct definition itself sits in
`molecules/clash_config/runtime_params.rs`; every field below is read by the
injector source shown in src/). -/
structure ParamsM where
  mixedPort : Int
  isAllowLanEnabled : Bool
  outboundMode : String
  isIpv6Enabled : Bool
  isTcpConcurrentEnabled : Bool
  isUnifiedDelayEnabled : Bool
  findProcessMode : String
  geodataLoader : String
  clashCoreLogLevel : String
  externalController : Option String
  externalControllerSecret : Option String
  isKeepAliveEnabled : Bool
  keepAliveInterval : Option Int
  isTunEnabled : Bool
  tunStack : String
  tunDevice : String
  isTunAutoRouteEnabled : Bool
  isTunAutoRedirectEnabled : Bool
  isTunAutoDetectInterfaceEnabled : Bool
  tunDnsHijacks : List String
  isTunStrictRouteEnabled : Bool
  tunRouteExcludeAddresses : List String
  tunMtu : Int
  isTunIcmpForwardingDisabled : Bool
  isDnsOverrideEnabled : Bool
  dnsOverrideContent : Option String

/-- External-controller block of the molecules injector (lines 52–80). -/
def ecStepM (p : ParamsM) (m : Ymap) : Ymap :=
  match p.externalController with
  | some ec =>
    if ec ≠ "" then
      let m1 := insertY "external-controller" (.str ec) m
      match p.externalControllerSecret with
      | some s =>
        if s ≠ "" then insertY "secret" (.str s) m1 else removeSwapY "secret" m1
      | none => removeSwapY "secret" m1
    else removeSwapY "secret" (removeSwapY "external-controller" m)
  | none => removeSwapY "secret" (removeSwapY "external-controller" m)

/-- Keep-alive block of the molecules injector (lines 146–156). -/
def kaStepM (p : ParamsM) (m : Ymap) : Ymap :=
  if p.isKeepAliveEnabled then
    match p.keepAliveInterval with
    | some i => insertY "keep-alive-interval" (.num i) m
    | none => m
  else removeSwapY "keep-alive-interval" m

/-- The `tun` mapping assembled at lines 167–226: a fresh `Mapping` filled by
inserts of pairwise-distinct keys, hence a literal list in insertion order. -/
def tunMapM (p : ParamsM) : Ymap :=
  [("enable", .boolv p.isTunEnabled),
   ("stack", .str p.tunStack),
   ("device", .str p.tunDevice),
   ("auto-route", .boolv p.isTunAutoRouteEnabled),
   ("auto-redirect", .boolv p.isTunAutoRedirectEnabled),
   ("auto-detect-interface", .boolv p.isTunAutoDetectInterfaceEnabled),
   ("dns-hijack", .seq (p.tunDnsHijacks.map Yval.str)),
   ("strict-route", .boolv p.isTunStrictRouteEnabled)]
  ++ (if p.tunRouteExcludeAddresses.isEmpty then []
     else [("route-exclude-address", .seq (p.tunRouteExcludeAddresses.map Yval.str))])
  ++ [("mtu", .num p.tunMtu),
     ("disable-icmp-forwarding", .boolv p.isTunIcmpForwardingDisabled)]

/-- The default nameserver list (lines 301–305 / clash version 300–304). -/
def defaultNameservers : Yval :=
  .seq [.str "8.8.8.8", .str "https://doh.pub/dns-query", .str "https://dns.alidns.com/dns-query"]

/-- The default default-nameserver list (lines 319–323 / clash version 318–322). -/
def defaultDefaultNameservers : Yval :=
  .seq [.str "system", .str "223.6.6.6", .str "8.8.8.8"]

/-- `!contains_key(k) || get(k).and_then(as_sequence).is_none_or(is_empty)`
— the guard that decides whether a default nameserver list is installed. -/
def nsMissingOrEmpty (k : String) (d : Ymap) : Bool :=
  !containsKeyY k d
    || (match getY k d with
       | some (.seq xs) => xs.isEmpty
       | _ => true)

/-- The common body of `inject_dns_config` once the enhanced-mode guard has
passed (molecules lines 271–328, clash version lines 269–327): fill in
`enable`, `ipv6` and the missing defaults. -/
def dnsDefaultsFill (ipv6 : Bool) (dns0 : Ymap) : Ymap :=
  let d := insertY "enable" (.boolv true) dns0
  let d := insertY "ipv6" (.boolv ipv6) d
  let d := if containsKeyY "enhanced-mode" d then d
    else insertY "enhanced-mode" (.str "fake-ip") d
  let d := if containsKeyY "fake-ip-range" d then d
    else insertY "fake-ip-range" (.str "198.18.0.1/16") d
  let d := if nsMissingOrEmpty "nameserver" d then insertY "nameserver" defaultNameservers d
    else d
  let d := if nsMissingOrEmpty "default-nameserver" d then
      insertY "default-nameserver" defaultDefaultNameservers d
    else d
  d

/-- `inject_dns_config` of the molecules injector (lines 251–336): read the
existing `dns` mapping (a fresh one if absent or not a mapping); skip entirely
when an explicit non-`fake-ip` `enhanced-mode` is configured; otherwise install
the filled `dns` mapping.  The Rust function always returns `Ok`. -/
def injectDnsConfigM (p : ParamsM) (m : Ymap) : Ymap :=
  let dns0 := ((getY "dns" m).bind Yval.asMapping).getD []
  let enhancedMode := ((getY "enhanced-mode" dns0).bind Yval.asStr).getD "fake-ip"
  if enhancedMode ≠ "fake-ip" ∧ containsKeyY "enhanced-mode" dns0 then m
  else insertY "dns" (.map (dnsDefaultsFill p.isIpv6Enabled dns0)) m

/-- `inject_user_dns_override` (molecules lines 339–374).  `parseYaml` is the
external `serde_yaml_ng::from_str` parser applied to the override text. -/
def injectUserDnsOverrideM (parseYaml : String → Option Yval) (p : ParamsM) (m : Ymap) :
    Except String Ymap :=
  match p.dnsOverrideContent with
  | some content =>
    if content ≠ "" then
      match parseYaml content with
      | none => .error "解析用户 DNS 配置失败"
      | some userCfg =>
        match userCfg.asMapping with
        | none => .error "用户 DNS 配置根节点必须是 Map"
        | some um =>
          let m1 := match getY "dns" um with
            | some dnsValue => insertY "dns" dnsValue m
            | none => m
          let m2 := match getY "hosts" um with
            | some hostsValue => insertY "hosts" hostsValue m1
            | none => m1
          .ok m2
    else .ok m
  | none => .ok m

/-- `inject_runtime_params` of molecules/clash_config/injector.rs (lines
8–248), as the transformation it performs on the parsed root mapping.  YAML
parsing and re-serialisation at the string boundary are the identity on this
representation (serialising equal trees yields equal bytes), so claims about
byte-equality of the serialised output become equality of the resulting
mappings. -/
def injectRuntimeParamsM (parseYaml : String → Option Yval) (p : ParamsM) (m : Ymap) :
    Except String Ymap :=
  let m1 := insertY "external-controller-unix" (.str "/tmp/stelliberty_dev.sock") m
  let m2 := ecStepM p m1
  let m3 := insertY "mixed-port" (.num p.mixedPort) m2
  let m4 := insertY "bind-address"
    (.str (if p.isAllowLanEnabled then "0.0.0.0" else "127.0.0.1")) m3
  let m5 := removeSwapY "port" m4
  let m6 := removeSwapY "socks-port" m5
  let m7 := insertY "mode" (.str p.outboundMode) m6
  let m8 := insertY "ipv6" (.boolv p.isIpv6Enabled) m7
  let m9 := insertY "tcp-concurrent" (.boolv p.isTcpConcurrentEnabled) m8
  let m10 := insertY "unified-delay" (.boolv p.isUnifiedDelayEnabled) m9
  let m11 := insertY "find-process-mode" (.str p.findProcessMode) m10
  let m12 := insertY "geodata-loader" (.str p.geodataLoader) m11
  let m13 := insertY "log-level" (.str p.clashCoreLogLevel) m12
  let m14 := kaStepM p m13
  let m15 := insertY "tun" (.map (tunMapM p)) m14
  if p.isDnsOverrideEnabled then injectUserDnsOverrideM parseYaml p m15
  else if p.isTunEnabled then .ok (injectDnsConfigM p m15)
  else .ok m15

/-! ## Runtime-parameter injector, clash/config profile
(hub/src/clash/config/injector.rs) -/

/-- `RuntimeConfigParams` of hub/src/clash/config/runtime_params.rs (the
fields the clash/config injector reads). -/
structure ParamsC where
  httpPort : Int
  ipv6 : Bool
  allowLan : Bool
  tcpConcurrent : Bool
  unifiedDelay : Bool
  outboundMode : String
  tunEnabled : Bool
  tunStack : String
  tunDevice : String
  tunAutoRoute : Bool
  tunAutoRedirect : Bool
  tunAutoDetectInterface : Bool
  tunDnsHijack : List String
  tunStrictRoute : Bool
  tunRouteExcludeAddress : List String
  tunDisableIcmpForwarding : Bool
  tunMtu : Int
  geodataLoader : String
  findProcessMode : String
  clashCoreLogLevel : String
  externalController : Option String
  externalControllerSecret : Option String
  keepAliveEnabled : Bool
  keepAliveInterval : Option Int

/-- External-controller block of the clash/config injector (lines 58–91). -/
def ecStepC (p : ParamsC) (m : Ymap) : Ymap :=
  match p.externalController with
  | some ec =>
    if ec ≠ "" then
      let m1 := insertY "external-controller" (.str ec) m
      match p.externalControllerSecret with
      | some s =>
        if s ≠ "" then insertY "secret" (.str s) m1 else removeSwapY "secret" m1
      | none => removeSwapY "secret" m1
    else removeSwapY "secret" (removeSwapY "external-controller" m)
  | none => removeSwapY "secret" (removeSwapY "external-controller" m)

/-- Keep-alive block of the clash/config injector (lines 135–145). -/
def kaStepC (p : ParamsC) (m : Ymap) : Ymap :=
  if p.keepAliveEnabled then
    match p.keepAliveInterval with
    | some i => insertY "keep-alive-interval" (.num i) m
    | none => m
  else removeSwapY "keep-alive-interval" m

/-- The `tun` mapping assembled at clash/config injector lines 162–226. -/
def tunMapC (p : ParamsC) : Ymap :=
  [("enable", .boolv p.tunEnabled),
   ("stack", .str p.tunStack),
   ("device", .str p.tunDevice),
   ("auto-route", .boolv p.tunAutoRoute),
   ("auto-redirect", .boolv p.tunAutoRedirect),
   ("auto-detect-interface", .boolv p.tunAutoDetectInterface),
   ("dns-hijack", .seq (p.tunDnsHijack.map Yval.str)),
   ("strict-route", .boolv p.tunStrictRoute)]
  ++ (if p.tunRouteExcludeAddress.isEmpty then []
     else [("route-exclude-address", .seq (p.tunRouteExcludeAddress.map Yval.str))])
  ++ [("mtu", .num p.tunMtu),
     ("disable-icmp-forwarding", .boolv p.tunDisableIcmpForwarding)]

/-- `inject_dns_config` of the clash/config injector (lines 250–336): same
defaults as the molecules version, with the guard written positively
(`current_mode == "fake-ip" || !contains_key("enhanced-mode")`). -/
def injectDnsConfigC (p : ParamsC) (m : Ymap) : Ymap :=
  let dns0 := ((getY "dns" m).bind Yval.asMapping).getD []
  let currentMode := ((getY "enhanced-mode" dns0).bind Yval.asStr).getD "fake-ip"
  if currentMode = "fake-ip" ∨ ¬ containsKeyY "enhanced-mode" dns0 then
    insertY "dns" (.map (dnsDefaultsFill p.ipv6 dns0)) m
  else m

/-- `inject_runtime_params` of hub/src/clash/config/injector.rs (lines 13–247),
on the parsed root mapping (Unix debug build; cf. `injectRuntimeParamsM`).
This profile never fails once the root is a mapping. -/
def injectRuntimeParamsC (p : ParamsC) (m : Ymap) : Ymap :=
  let m1 := insertY "external-controller-unix" (.str "/tmp/stelliberty_dev.sock") m
  let m2 := ecStepC p m1
  let m3 := insertY "mixed-port" (.num p.httpPort) m2
  let m4 := insertY "bind-address"
    (.str (if p.allowLan then "0.0.0.0" else "127.0.0.1")) m3
  let m5 := removeSwapY "port" m4
  let m6 := removeSwapY "socks-port" m5
  let m7 := insertY "mode" (.str p.outboundMode) m6
  let m8 := insertY "unified-delay" (.boolv p.unifiedDelay) m7
  let m9 := kaStepC p m8
  let m10 := insertY "tun" (.map (tunMapC p)) m9
  if p.tunEnabled then injectDnsConfigC p m10 else m10

/-! ### Shared forms of the duplicated injector steps

The two injector modules duplicate the external-controller, keep-alive and
DNS-defaults logic; the following definitions give each shared block a single
parametric form (proved equal to both module versions below), so the
idempotence argument is made once. -/

/-- The external-controller block, parametric in the two option fields. -/
def ecStepCore (ecOpt secOpt : Option String) (m : Ymap) : Ymap :=
  match ecOpt with
  | some ec =>
    if ec ≠ "" then
      let m1 := insertY "external-controller" (.str ec) m
      match secOpt with
      | some s =>
        if s ≠ "" then insertY "secret" (.str s) m1 else removeSwapY "secret" m1
      | none => removeSwapY "secret" m1
    else removeSwapY "secret" (removeSwapY "external-controller" m)
  | none => removeSwapY "secret" (removeSwapY "external-controller" m)

/-- The keep-alive block, parametric in the enabled flag and interval. -/
def kaStepCore (enabled : Bool) (interval : Option Int) (m : Ymap) : Ymap :=
  if enabled then
    match interval with
    | some i => insertY "keep-alive-interval" (.num i) m
    | none => m
  else removeSwapY "keep-alive-interval" m

/-- The effective `enhanced-mode` value both `inject_dns_config` versions
compute: `get("enhanced-mode").and_then(as_str).unwrap_or("fake-ip")`. -/
def emVal (d : Ymap) : String :=
  ((getY "enhanced-mode" d).bind Yval.asStr).getD "fake-ip"

/-- The common form of both `inject_dns_config` guards: the defaults are
installed exactly when the effective enhanced-mode is `fake-ip` (if the mode
differs, the key must be present, so both modules' guards coincide with
this). -/
def dnsFillApply (ipv6 : Bool) (m : Ymap) : Ymap :=
  let dns0 := ((getY "dns" m).bind Yval.asMapping).getD []
  if emVal dns0 = "fake-ip" then
    insertY "dns" (.map (dnsDefaultsFill ipv6 dns0)) m
  else m

/-! ## Validator: proxy-group cycle detection
(hub/src/clash/subscription/validator.rs lines 743–834) -/

/-- A `ValidationError` (validator.rs lines 72–77). -/
structure VErrL where
  category : String
  field : Option String
  message : String
deriving Repr, DecidableEq

/-- The dependency graph `HashMap<String, Vec<String>>`; `insert` overwrites
the value of an existing key.  The list order carries no meaning: iteration
order of the `HashMap` is supplied separately. -/
def graphInsert (k : String) (v : List String) :
    List (String × List String) → List (String × List String)
  | [] => [(k, v)]
  | (k', v') :: t => if k' = k then (k, v) :: t else (k', v') :: graphInsert k v t

/-- `HashMap::get`. -/
def graphGet (k : String) : List (String × List String) → Option (List String)
  | [] => none
  | (k', v) :: t => if k' = k then some v else graphGet k t

/-- `HashMap::contains_key`. -/
def graphContains (g : List (String × List String)) (k : String) : Bool :=
  (graphGet k g).isSome

/-- Building the dependency graph (validator.rs lines 756–784): for every
group that is a mapping with a string `name` and a sequence `proxies`, record
the string entries of `proxies` as its dependencies. -/
def buildDepGraph (groupsArray : List Yval) : List (String × List String) :=
  groupsArray.foldl
    (fun g group =>
      match group.asMapping with
      | none => g
      | some groupObj =>
        match (getY "name" groupObj).bind Yval.asStr with
        | none => g
        | some groupName =>
          match (getY "proxies" groupObj) with
          | some proxies =>
            match proxies with
            | .seq proxiesArray =>
              graphInsert groupName (proxiesArray.filterMap Yval.asStr) g
            | _ => g
          | none => g)
    []

/-- `dfs_detect_cycle` (validator.rs lines 808–834).  `visited` and `recStack`
are the two `HashSet`s, threaded explicitly; the result is the returned
Boolean and the updated sets.  The `for neighbor in neighbors` loop with its
early `return true` is encoded as a fold whose accumulator freezes once a
cycle is found (so later neighbours are not examined and the node is not
removed from the recursion stack, as in the source); only neighbours that are
themselves group names are explored.  `fuel` bounds the recursion depth; each
recursive call happens on an unvisited node, so a fuel of (number of graph
keys + 1) is never exhausted — the fuel-0 branch is a modelling artifact. -/
def dfsVisit (g : List (String × List String)) :
    Nat → String → List String → List String → Bool × List String × List String
  | 0, _, visited, recStack => (false, visited, recStack)
  | fuel + 1, node, visited, recStack =>
    let res := ((graphGet node g).getD []).foldl
      (fun acc n =>
        match acc with
        | (true, _, _) => acc
        | (false, v, r) =>
          if graphContains g n then
            if n ∉ v then dfsVisit g fuel n v r
            else if n ∈ r then (true, v, r)
            else (false, v, r)
          else (false, v, r))
      (false, node :: visited, node :: recStack)
    match res with
    | (true, v2, r2) => (true, v2, r2)
    | (false, v2, r2) => (false, v2, r2.erase node)

/-- The error pushed at validator.rs lines 792–796. -/
def cycleErr (node : String) : VErrL :=
  ⟨"代理组配置", some ("proxy-groups[" ++ node ++ "]"),
    "检测到循环引用，涉及代理组：" ++ node⟩

/-- The `for node in graph.keys()` loop of `check_group_cycles` (lines
790–798).  `order` is the iteration order the `HashMap` happens to produce
(unspecified by Rust); `visited` and `recStack` persist across iterations as
in the source. -/
def cycleScanLoop (g : List (String × List String)) :
    List String → List String → List String → List VErrL
  | [], _, _ => []
  | node :: rest, visited, recStack =>
    if node ∈ visited then cycleScanLoop g rest visited recStack
    else
      match dfsVisit g (g.length + 1) node visited recStack with
      | (true, v2, r2) => cycleErr node :: cycleScanLoop g rest v2 r2
      | (false, v2, r2) => cycleScanLoop g rest v2 r2

/-- `check_group_cycles` (validator.rs lines 743–805): build the dependency
graph from `proxy-groups` and scan every key in the `HashMap`'s iteration
order; the resulting error list is empty exactly when the function returns
`Ok(())`. -/
def checkGroupCycles (order : List String) (root : Ymap) : List VErrL :=
  match getY "proxy-groups" root with
  | none => []
  | some groups =>
    match groups with
    | .seq groupsArray => cycleScanLoop (buildDepGraph groupsArray) order [] []
    | _ => []

/-! ## Starting the core twice: direct mode and Service mode
(hub/src/molecules/clash_process/process_manager.rs;
stelliberty_service/src/clash/manager.rs) -/

/-- The `ClashProcessResult` signal (process_manager.rs lines 21–26); the pid
is a `u32`, modelled as `Nat`. -/
structure ClashProcessResult where
  isSuccessful : Bool
  errorMessage : Option String
  pid : Option Nat
deriving Repr, DecidableEq

/-- `StartClashProcess::handle` (process_manager.rs lines 254–300) acting on
the global `PROCESS_MANAGER` slot: if a process is already tracked, answer
`进程已在运行` and leave the slot untouched; otherwise spawn (`spawn` is the
outcome `ClashProcess::start` would produce) and store the new process.
Returns the new slot contents and the signal sent to Dart. -/
def startClashProcessHandle (slot : Option Nat) (spawn : Except String Nat) :
    Option Nat × ClashProcessResult :=
  match slot with
  | some _ => (slot, ⟨false, some "进程已在运行", none⟩)
  | none =>
    match spawn with
    | .ok pid => (some pid, ⟨true, none, some pid⟩)
    | .error e => (none, ⟨false, some e, none⟩)

/-- `ClashManager::start` of the privileged service (manager.rs lines 56–161)
acting on the `child` slot: if a core instance is already running it is
*stopped first* (`self.stop()?`), orphan processes are reaped, the executable
and configuration paths are checked, and only then is a new core spawned.
Returns the new `child` slot, whether an existing instance was stopped, and
the result. -/
def clashManagerStart (child : Option Nat) (coreExists configExists : Bool)
    (spawn : Except String Nat) : Option Nat × Bool × Except String Unit :=
  let stoppedOld := child.isSome
  if !coreExists then (none, stoppedOld, .error "Clash 核心文件不存在")
  else if !configExists then (none, stoppedOld, .error "配置文件不存在")
  else
    match spawn with
    | .ok pid => (some pid, stoppedOld, .ok ())
    | .error e => (none, stoppedOld, .error ("启动 Clash 失败: " ++ e))

/-! ## Specification-side definitions

These definitions follow the *specification's words* (not the source); each is
compared against the corresponding source-derived definition to settle a
refinement-style claim. -/

/-- The pool-entry condition as the specification words it for `acquire()`:
"its age is below the 35 s idle TTL and a non-blocking zero-byte probe read
indicates the connection is still open (returns WouldBlock)". -/
def specPoolEntryReturnable (probeOf : Nat → Probe) (now : Nat) (e : PoolEntry) : Bool :=
  decide (now - e.lastUsed < IDLE_TIMEOUT_MS) && decide (probeOf e.conn = .wouldBlock)

/-- The retry trigger as the specification words it: "a retry happens exactly
when the error message indicates a pipe-busy or transport-level I/O failure
(including `Connection refused`, `Broken pipe`, and `file not found` from the
pipe layer)". -/
def specRetryIndicated (msg : String) : Bool :=
  hasSub msg "pipe busy" || hasSub msg "Connection refused" || hasSub msg "Broken pipe"
    || hasSub msg "file not found" || hasSub msg "系统找不到指定的文件"

/-- The Base64 shape test as the specification words it: "after stripping
whitespace, its length exceeds 50 and every remaining character is from the
alphabet `[A-Za-z0-9+/=]`". -/
def specBase64Shape (body : String) : Bool :=
  let clean := stripWs body
  decide (50 < clean.length)
    && clean.toList.all (fun c => c.isAlpha || c.isDigit || c = '+' || c = '/' || c = '=')

/-! ## Concrete fixtures used by counterexamples -/

/-- A root configuration with two proxy groups `G1` and `G2` referencing each
other (the cycle fixture of the specification's scenario 3). -/
def rootG1G2 : Ymap :=
  [("proxies", .seq [.map [("name", .str "p1")]]),
   ("proxy-groups", .seq
     [.map [("name", .str "G1"), ("proxies", .seq [.str "G2"])],
      .map [("name", .str "G2"), ("proxies", .seq [.str "G1"])]])]

/-- A stand-in for the `serde_yaml_ng::from_str::<Value>(..).is_ok()` oracle
used in counterexamples: it answers `true` for every string.  The only strings
the counterexamples below feed to it are
`"proxies: []\nproxy-groups: []\nrules: []\n"` and its trimmed form, both of
which the real YAML parser does accept. -/
def yamlOkAll : String → Bool := fun _ => true

/-- The Base64 body used by the re-parse counterexample: the standard Base64
encoding of `"proxies: []\nproxy-groups: []\nrules: []\n"` (39 bytes, so the
encoding is 52 characters long and passes the length > 50 shape test). -/
def cexBody : String := "cHJveGllczogW10KcHJveHktZ3JvdXBzOiBbXQpydWxlczogW10K"

/-- The decoded subscription document: note the trailing newline. -/
def cexDoc : String := "proxies: []\nproxy-groups: []\nrules: []\n"

/-- A concrete `RuntimeConfigParams` record for the molecules injector, with
both the DNS override and TUN disabled. -/
def pM0 : ParamsM :=
  ⟨7890, false, "rule", false, true, true, "strict", "memconservative", "info",
   some "127.0.0.1:9090", some "tok", true, some 15, false, "gvisor", "utun",
   true, false, true, [], false, [], 1500, false, false, none⟩

/-- A concrete `RuntimeConfigParams` record for the clash/config injector. -/
def pC0 : ParamsC :=
  ⟨7890, false, false, true, true, "rule", true, "system", "utun0", true, false,
   true, [], false, [], false, 9000, "standard", "always", "debug",
   some "127.0.0.1:9090", none, false, none⟩

/-- The mapping produced by running the molecules injector on an empty root
with `pM0` (the run succeeds, so the `match` extracts the payload). -/
def qM0 : Ymap :=
  match injectRuntimeParamsM (fun _ => none) pM0 [] with
  | .ok v => v
  | .error _ => []

/-! # Theorems -/

/-! ## C1 — heartbeat timeout stops the core exactly once -/

theorem svcStep_core_mono (s : SvcState) (e : SvcEvent) :
    (svcStep s e).coreRunning = true → s.coreRunning = true := by
  cases e with
  | tick now =>
    simp only [svcStep, monitorTick]
    split_ifs <;> simp_all
  | heartbeat now =>
    simp [svcStep, heartbeatCmd]

theorem svcStep_core_false (s : SvcState) (e : SvcEvent) (h : s.coreRunning = false) :
    (svcStep s e).coreRunning = false := by
  cases hc : (svcStep s e).coreRunning
  · rfl
  · exact absurd (svcStep_core_mono s e hc) (by simp [h])

theorem stopTransitions_eq_zero (s : SvcState) (es : List SvcEvent)
    (h : s.coreRunning = false) : stopTransitions s es = 0 := by
  induction es generalizing s with
  | nil => rfl
  | cons e es ih =>
    simp only [stopTransitions, h, Bool.false_and, Bool.false_eq_true, if_false,
      Nat.zero_add]
    exact ih _ (svcStep_core_false s e h)

theorem stopTransitions_le_one (s : SvcState) (es : List SvcEvent) :
    stopTransitions s es ≤ 1 := by
  induction es generalizing s with
  | nil => simp [stopTransitions]
  | cons e es ih =>
    by_cases hc : s.coreRunning
    · by_cases hc1 : (svcStep s e).coreRunning
      · simpa [stopTransitions, hc, hc1] using ih (svcStep s e)
      · have h0 := stopTransitions_eq_zero (svcStep s e) es (by simpa using hc1)
        simp [stopTransitions, hc, hc1, h0]
    · have hc' : s.coreRunning = false := by simpa using hc
      simp [stopTransitions_eq_zero s (e :: es) hc']

/-- **C1.** On a monitor tick whose wakeup gap does not indicate host sleep
(≤ 60 s since the previous check), if more than 70 s have elapsed since the
last recorded heartbeat, the service stops the core but keeps running itself
and resets the heartbeat timestamp to the current instant; no event of the
heartbeat subsystem ever restarts the core, so over any event trace the core
is stopped at most once, and with ticks every 30 s and no heartbeats it is
stopped by the third tick; a `Heartbeat` command only updates the timestamp. -/
theorem heartbeat_timeout_stops_core_once :
    (∀ (s : SvcState) (now : Nat),
      now - s.lastCheck ≤ SLEEP_GAP → HEARTBEAT_TIMEOUT < now - s.lastHeartbeat →
      monitorTick s now =
        ⟨now, now, false, s.serviceRunning⟩) ∧
    (∀ (s : SvcState) (e : SvcEvent),
      (svcStep s e).coreRunning = true → s.coreRunning = true) ∧
    (∀ (s : SvcState) (now : Nat),
      heartbeatCmd s now =
        ⟨now, s.lastCheck, s.coreRunning, s.serviceRunning⟩) ∧
    (∀ (s : SvcState) (es : List SvcEvent), stopTransitions s es ≤ 1) ∧
    (∀ (h : Nat) (sr : Bool),
      svcRun ⟨h, h, true, sr⟩ [.tick (h + 30), .tick (h + 60), .tick (h + 90)] =
        ⟨h + 90, h + 90, false, sr⟩) := by
  refine ⟨?_, svcStep_core_mono, ?_, stopTransitions_le_one, ?_⟩
  · intro s now hgap htimeout
    simp only [monitorTick]
    rw [if_neg (by omega), if_pos (by omega)]
  · intro s now
    rfl
  · intro h sr
    have t1 : svcStep ⟨h, h, true, sr⟩ (.tick (h + 30)) = ⟨h, h + 30, true, sr⟩ := by
      simp only [svcStep, monitorTick, SLEEP_GAP, HEARTBEAT_TIMEOUT]
      rw [if_neg (by simp), if_neg (by simp)]
    have t2 : svcStep ⟨h, h + 30, true, sr⟩ (.tick (h + 60)) = ⟨h, h + 60, true, sr⟩ := by
      simp only [svcStep, monitorTick, SLEEP_GAP, HEARTBEAT_TIMEOUT]
      rw [if_neg (by simp), if_neg (by simp)]
    have t3 : svcStep ⟨h, h + 60, true, sr⟩ (.tick (h + 90)) =
        ⟨h + 90, h + 90, false, sr⟩ := by
      simp only [svcStep, monitorTick, SLEEP_GAP, HEARTBEAT_TIMEOUT]
      rw [if_neg (by simp), if_pos (by simp)]
    simp only [svcRun, List.foldl, t1, t2, t3]

/-- Witness for C1 at concrete inputs: a tick at instant 80 with last check at
50 and last heartbeat at 0 stops the core and resets the timestamp; the
three-tick schedule from instant 0 stops the core. -/
theorem heartbeat_timeout_stops_core_once_witness :
    (80 - 50 ≤ SLEEP_GAP ∧ HEARTBEAT_TIMEOUT < 80 - 0 ∧
      monitorTick ⟨0, 50, true, true⟩ 80 = ⟨80, 80, false, true⟩) ∧
    svcRun ⟨0, 0, true, true⟩ [.tick 30, .tick 60, .tick 90] = ⟨90, 90, false, true⟩ :=
  ⟨⟨by decide, by decide,
      heartbeat_timeout_stops_core_once.1 ⟨0, 50, true, true⟩ 80 (by decide) (by decide)⟩,
    heartbeat_timeout_stops_core_once.2.2.2.2 0 true⟩

/-! ## C5 — release bound and pool/semaphore invariants -/

theorem acquireFromPool_rest_length (probeOf : Nat → Probe) (now : Nat)
    (pool : List PoolEntry) (e : PoolEntry) (rest : List PoolEntry)
    (h : acquireFromPool probeOf now pool = some (e, rest)) :
    rest.length < pool.length := by
  induction pool with
  | nil => simp [acquireFromPool] at h
  | cons x xs ih =>
    simp only [acquireFromPool] at h
    by_cases hu : entryUsable probeOf now x
    · simp only [hu, if_true] at h
      cases h
      simp
    · simp only [hu, if_false, Bool.false_eq_true] at h
      exact Nat.lt_trans (ih h) (by simp)

theorem poolStep_length_le (pool : List PoolEntry) (e : PoolEvent)
    (h : pool.length ≤ MAX_POOL_SIZE) : (poolStep pool e).length ≤ MAX_POOL_SIZE := by
  cases e with
  | acq probeOf now outcomes =>
    simp only [poolStep, acquireConnection]
    cases hq : acquireFromPool probeOf now pool with
    | none => simp
    | some pr =>
      obtain ⟨c, rest⟩ := pr
      have := acquireFromPool_rest_length probeOf now pool c rest hq
      simpa using Nat.le_of_lt (Nat.lt_of_lt_of_le this h)
  | rel c now =>
    simp only [poolStep, releaseConnection]
    split_ifs with hlen
    · simpa using hlen
    · exact h
  | health probeOf now =>
    exact Nat.le_trans (by simpa [poolStep, healthCheckRound] using
      List.length_filter_le _ pool) h
  | cleanup => simp [poolStep]

theorem poolRun_length_le (evts : List PoolEvent) :
    (poolRun evts).length ≤ MAX_POOL_SIZE := by
  suffices h : ∀ pool : List PoolEntry, pool.length ≤ MAX_POOL_SIZE →
      (evts.foldl poolStep pool).length ≤ MAX_POOL_SIZE by
    exact h [] (by simp [MAX_POOL_SIZE])
  induction evts with
  | nil => intro pool hp; simpa
  | cons e es ih =>
    intro pool hp
    exact ih _ (poolStep_length_le pool e hp)

theorem semRun_le (evts : List Bool) : semRun evts ≤ MAX_CONCURRENT_CONNECTIONS := by
  suffices h : ∀ held : Nat, held ≤ MAX_CONCURRENT_CONNECTIONS →
      (evts.foldl semStep held) ≤ MAX_CONCURRENT_CONNECTIONS by
    exact h 0 (by simp [MAX_CONCURRENT_CONNECTIONS])
  induction evts with
  | nil => intro held hh; simpa
  | cons e es ih =>
    intro held hh
    refine ih _ ?_
    cases e with
    | true =>
      simp only [semStep]
      split_ifs with hlt
      · omega
      · exact hh
    | false =>
      simp only [semStep]
      omega

/-- **C5.** `release_connection` pushes the connection to the back of the pool
with `last_used` set to the current instant exactly when the pool holds fewer
than `MAX_POOL_SIZE = 30` connections, and drops it otherwise; consequently a
pool built by any sequence of acquire / release / health-check / cleanup
operations never holds more than 30 entries, and the 20-permit connection
semaphore never has more than 20 permits held. -/
theorem release_pushes_iff_below_cap :
    (∀ (pool : List PoolEntry) (c now : Nat), pool.length < MAX_POOL_SIZE →
      releaseConnection pool c now = pool ++ [⟨c, now⟩]) ∧
    (∀ (pool : List PoolEntry) (c now : Nat), MAX_POOL_SIZE ≤ pool.length →
      releaseConnection pool c now = pool) ∧
    MAX_POOL_SIZE = 30 ∧ MAX_CONCURRENT_CONNECTIONS = 20 ∧
    (∀ evts : List PoolEvent, (poolRun evts).length ≤ MAX_POOL_SIZE) ∧
    (∀ evts : List Bool, semRun evts ≤ MAX_CONCURRENT_CONNECTIONS) := by
  refine ⟨?_, ?_, rfl, rfl, poolRun_length_le, semRun_le⟩
  · intro pool c now hlen
    simp [releaseConnection, hlen]
  · intro pool c now hlen
    simp [releaseConnection, Nat.not_lt.mpr hlen]

/-- Witness for C5 at concrete inputs: a one-element pool accepts a released
connection at instant 5; a full 30-element pool drops it; a concrete event
trace stays within the bound. -/
theorem release_pushes_iff_below_cap_witness :
    (List.replicate 1 (⟨9, 0⟩ : PoolEntry)).length < MAX_POOL_SIZE ∧
    releaseConnection (List.replicate 1 ⟨9, 0⟩) 3 5 = List.replicate 1 ⟨9, 0⟩ ++ [⟨3, 5⟩] ∧
    MAX_POOL_SIZE ≤ (List.replicate 30 (⟨9, 0⟩ : PoolEntry)).length ∧
    releaseConnection (List.replicate 30 ⟨9, 0⟩) 3 5 = List.replicate 30 ⟨9, 0⟩ ∧
    (poolRun [.rel 1 0, .rel 2 0, .cleanup, .rel 3 7]).length ≤ MAX_POOL_SIZE ∧
    semRun [true, true, false, true] ≤ MAX_CONCURRENT_CONNECTIONS :=
  ⟨by decide,
    release_pushes_iff_below_cap.1 (List.replicate 1 ⟨9, 0⟩) 3 5 (by decide),
    by decide,
    release_pushes_iff_below_cap.2.1 (List.replicate 30 ⟨9, 0⟩) 3 5 (by decide),
    release_pushes_iff_below_cap.2.2.2.2.1 [.rel 1 0, .rel 2 0, .cleanup, .rel 3 7],
    release_pushes_iff_below_cap.2.2.2.2.2 [true, true, false, true]⟩

/-! ## C4 — the acquire algorithm -/

/-- **C4, counterexample.** The claim states a popped connection is returned
*iff* its age is below the TTL and the probe returns `WouldBlock`.  But
`PooledConnection::is_valid` also answers `true` when the non-blocking read
returns pending data (`Ok(n)` with `n > 0`): a fresh entry whose probe reads
data is returned by `acquire_connection`, although the claimed condition
(probe = WouldBlock) does not hold. -/
theorem acquire_probe_readData_counterexample :
    acquireConnection (fun _ => Probe.readData) 0 [⟨7, 0⟩] [] = (.ok 7, [], false) ∧
    specPoolEntryReturnable (fun _ => Probe.readData) 0 ⟨7, 0⟩ = false := by
  constructor
  · rfl
  · decide

theorem acquireFromPool_first_usable (probeOf : Nat → Probe) (now : Nat)
    (dropped : List PoolEntry) (e : PoolEntry) (rest : List PoolEntry)
    (hdrop : ∀ d ∈ dropped, entryUsable probeOf now d = false)
    (he : entryUsable probeOf now e = true) :
    acquireFromPool probeOf now (dropped ++ e :: rest) = some (e, rest) := by
  induction dropped with
  | nil => simp [acquireFromPool, he]
  | cons d ds ih =>
    have hd : entryUsable probeOf now d = false := hdrop d (by simp)
    simp only [List.cons_append, acquireFromPool, hd, Bool.false_eq_true, if_false]
    exact ih (fun x hx => hdrop x (by simp [hx]))

theorem acquireFromPool_none (probeOf : Nat → Probe) (now : Nat)
    (pool : List PoolEntry) (h : ∀ d ∈ pool, entryUsable probeOf now d = false) :
    acquireFromPool probeOf now pool = none := by
  induction pool with
  | nil => rfl
  | cons d ds ih =>
    have hd : entryUsable probeOf now d = false := h d (by simp)
    simp only [acquireFromPool, hd, Bool.false_eq_true, if_false]
    exact ih (fun x hx => h x (by simp [hx]))

/-- **C4, amended.** `acquire()` pops the front of the FIFO pool and returns
the first entry whose age is below the 35 s TTL and whose non-blocking probe
indicates the connection is open — which in the code means the probe returns
`WouldBlock` *or* reads pending data — dropping every earlier entry; with no
usable entry it takes a semaphore permit and runs the connect loop, which
makes up to `MAX_CONNECT_RETRIES = 3` attempts with a fixed 50 ms delay and on
final failure surfaces the platform error in its message. -/
theorem acquire_fifo_probe_and_connect_retry :
    (∀ (probeOf : Nat → Probe) (now : Nat) (e : PoolEntry),
      entryUsable probeOf now e = true ↔
        (now - e.lastUsed < IDLE_TIMEOUT_MS ∧
          (probeOf e.conn = .wouldBlock ∨ probeOf e.conn = .readData))) ∧
    (∀ (probeOf : Nat → Probe) (now : Nat) (dropped : List PoolEntry)
      (e : PoolEntry) (rest : List PoolEntry) (outcomes : List (Except String Nat)),
      (∀ d ∈ dropped, entryUsable probeOf now d = false) →
      entryUsable probeOf now e = true →
      acquireConnection probeOf now (dropped ++ e :: rest) outcomes =
        (.ok e.conn, rest, false)) ∧
    (∀ (probeOf : Nat → Probe) (now : Nat) (pool : List PoolEntry)
      (outcomes : List (Except String Nat)),
      (∀ d ∈ pool, entryUsable probeOf now d = false) →
      acquireConnection probeOf now pool outcomes =
        (connectLoop "Unix Socket" outcomes (MAX_CONNECT_RETRIES - 1), [], true)) ∧
    (∀ (ct : String) (c : Nat) (rest : List (Except String Nat)) (n : Nat),
      connectLoop ct (.ok c :: rest) n = .ok c) ∧
    (∀ (ct : String) (e : String) (rest : List (Except String Nat)) (n : Nat),
      connectLoop ct (.error e :: rest) (n + 1) = connectLoop ct rest n) ∧
    (∀ (ct : String) (e1 e2 e3 : String),
      connectLoop ct [.error e1, .error e2, .error e3] (MAX_CONNECT_RETRIES - 1) =
        .error (connectFailMsg ct e3)) ∧
    MAX_CONNECT_RETRIES = 3 ∧ RETRY_DELAY_MS = 50 := by
  refine ⟨?_, ?_, ?_, fun _ _ _ _ => rfl, fun _ _ _ _ => rfl, fun _ _ _ _ => rfl,
    rfl, rfl⟩
  · intro probeOf now e
    constructor
    · intro h
      simp only [entryUsable, Bool.and_eq_true, decide_eq_true_eq] at h
      refine ⟨h.1, ?_⟩
      cases hp : probeOf e.conn <;> simp [hp, isValidProbe] at h ⊢
    · rintro ⟨h1, h2⟩
      simp only [entryUsable, Bool.and_eq_true, decide_eq_true_eq]
      exact ⟨h1, by rcases h2 with h | h <;> simp [h, isValidProbe]⟩
  · intro probeOf now dropped e rest outcomes hdrop he
    simp [acquireConnection, acquireFromPool_first_usable probeOf now dropped e rest hdrop he]
  · intro probeOf now pool outcomes h
    simp [acquireConnection, acquireFromPool_none probeOf now pool h]

/-- Witness for C4: a pool of one stale entry and one fresh entry returns the
fresh one; an all-stale pool falls through to the connect loop, which fails
after three attempts with the final platform error. -/
theorem acquire_fifo_probe_and_connect_retry_witness :
    entryUsable (fun _ => .wouldBlock) 40000 ⟨2, 30000⟩ = true ∧
    (∀ d ∈ [(⟨1, 0⟩ : PoolEntry)], entryUsable (fun _ => .wouldBlock) 40000 d = false) ∧
    acquireConnection (fun _ => .wouldBlock) 40000 [⟨1, 0⟩, ⟨2, 30000⟩] [] =
      (.ok 2, [], false) ∧
    acquireConnection (fun _ => .wouldBlock) 40000 [⟨1, 0⟩]
        [.error "e1", .error "e2", .error "e3"] =
      (.error (connectFailMsg "Unix Socket" "e3"), [], true) := by
  refine ⟨by decide, by decide, ?_, ?_⟩
  · exact acquire_fifo_probe_and_connect_retry.2.1 (fun _ => .wouldBlock) 40000
      [⟨1, 0⟩] ⟨2, 30000⟩ [] [] (by decide) (by decide)
  · have h := acquire_fifo_probe_and_connect_retry.2.2.1 (fun _ => .wouldBlock) 40000
      [⟨1, 0⟩] [.error "e1", .error "e2", .error "e3"] (by decide)
    have h3 := acquire_fifo_probe_and_connect_retry.2.2.2.2.2.1 "Unix Socket" "e1" "e2" "e3"
    rw [h, h3]

/-! ## C3 — one-shot request retry policy -/

/-- **C3, counterexample.** The claim says a retry happens exactly when the
message indicates a transport-level failure, *including* `Connection refused`
and the pipe layer's file-not-found.  But `should_retry_on_error` explicitly
excludes every message classified by `is_ipc_not_ready_error` — and that class
contains `Connection refused` (and the file-not-found marker) — so a request
failing with `Connection refused` is answered immediately with zero retries
and zero pool flushes, although the claimed trigger condition holds. -/
theorem retry_connection_refused_counterexample :
    runIpcRequest 0 [.reqFail "Connection refused", .respOk 200 "ok"] =
      some (⟨0, "", false, some "IPC 请求失败：Connection refused"⟩, 0) ∧
    specRetryIndicated "Connection refused" = true ∧
    isIpcNotReadyError "Connection refused" = true ∧
    shouldRetryOnError "Connection refused" 0 MAX_RETRIES = false := by
  refine ⟨?_, by decide, by decide, by decide⟩
  have h : shouldRetryOnError "Connection refused" 0 MAX_RETRIES = false := by decide
  simp [runIpcRequest, h]

theorem runIpcRequest_flushes_le (atts : List IpcAttempt) (n : Nat)
    (r : IpcResponseSig) (f : Nat) (h : runIpcRequest n atts = some (r, f)) :
    f ≤ MAX_RETRIES - n := by
  induction atts generalizing n f r with
  | nil => simp [runIpcRequest] at h
  | cons a rest ih =>
    cases a with
    | acqFail m =>
      simp only [runIpcRequest] at h
      cases h
      simp
    | respOk s b =>
      simp only [runIpcRequest] at h
      cases h
      simp
    | reqFail m =>
      simp only [runIpcRequest] at h
      by_cases hr : shouldRetryOnError m n MAX_RETRIES
      · simp only [hr, if_true, Option.map_eq_some'] at h
        obtain ⟨⟨r1, f1⟩, hrun, heq⟩ := h
        have hn : n < MAX_RETRIES := by
          have h2 := hr
          simp only [shouldRetryOnError, Bool.and_eq_true, decide_eq_true_eq] at h2
          exact h2.1.1
        have hb := ih (n + 1) r1 f1 hrun
        have hf : f = f1 + 1 := by
          cases heq
          rfl
        omega
      · simp only [hr, if_false, Bool.false_eq_true] at h
        cases h
        simp

/-- **C3, amended.** A one-shot request is retried at most `MAX_RETRIES = 2`
times; a received application response — whatever its status, 4xx/5xx
included — is returned at once and never retried, and a connection-acquisition
failure is also answered at once; a request failure is retried (flushing the
whole pool first, one flush per retry) exactly when `should_retry_on_error`
holds, i.e. when the attempt budget remains, the message is *not* classified
IPC-not-ready (`Connection refused`, `拒绝连接`, os error 2/61/111, or the
Windows file-not-found text), and it contains `os error`, the file-not-found
text, `Connection refused` or `Broken pipe` — so of that list only `os error`
/ `Broken pipe` messages outside the not-ready class are actually retried. -/
theorem ipc_retry_policy :
    (∀ (atts : List IpcAttempt) (r : IpcResponseSig) (f : Nat),
      runIpcRequest 0 atts = some (r, f) → f ≤ MAX_RETRIES) ∧
    (∀ (n s : Nat) (b : String) (rest : List IpcAttempt),
      runIpcRequest n (.respOk s b :: rest) = some (⟨s, b, true, none⟩, 0)) ∧
    (∀ (n : Nat) (m : String) (rest : List IpcAttempt),
      runIpcRequest n (.acqFail m :: rest) =
        some (⟨0, "", false, some ("获取连接失败：" ++ m)⟩, 0)) ∧
    (∀ (n : Nat) (m : String) (rest : List IpcAttempt),
      shouldRetryOnError m n MAX_RETRIES = true →
      runIpcRequest n (.reqFail m :: rest) =
        (runIpcRequest (n + 1) rest).map (fun r => (r.1, r.2 + 1))) ∧
    (∀ (n : Nat) (m : String) (rest : List IpcAttempt),
      shouldRetryOnError m n MAX_RETRIES = false →
      runIpcRequest n (.reqFail m :: rest) =
        some (⟨0, "", false, some ("IPC 请求失败：" ++ m)⟩, 0)) ∧
    (∀ (m : String) (n : Nat),
      shouldRetryOnError m n MAX_RETRIES = true ↔
        (n < MAX_RETRIES ∧ isIpcNotReadyError m = false ∧
          (hasSub m "os error" = true ∨ hasSub m "系统找不到指定的文件" = true ∨
            hasSub m "Connection refused" = true ∨ hasSub m "Broken pipe" = true))) := by
  refine ⟨?_, ?_, ?_, ?_, ?_, ?_⟩
  · intro atts r f h
    have hb := runIpcRequest_flushes_le atts 0 r f h
    omega
  · intro n s b rest
    rfl
  · intro n m rest
    rfl
  · intro n m rest h
    simp [runIpcRequest, h]
  · intro n m rest h
    simp [runIpcRequest, h]
  · intro m n
    simp only [shouldRetryOnError, Bool.and_eq_true, Bool.or_eq_true,
      Bool.not_eq_true', decide_eq_true_eq]
    tauto

/-- Witness for C3 at concrete inputs: a `Broken pipe` failure (not in the
not-ready class) is retried with a pool flush and the retried request
succeeds; a second concrete run returns a 404 application response untouched;
the bound applies to the first run. -/
theorem ipc_retry_policy_witness :
    shouldRetryOnError "Broken pipe" 0 MAX_RETRIES = true ∧
    runIpcRequest 0 [.reqFail "Broken pipe", .respOk 200 "body"] =
      some (⟨200, "body", true, none⟩, 1) ∧
    runIpcRequest 0 [.respOk 404 "not found"] = some (⟨404, "not found", true, none⟩, 0) ∧
    runIpcRequest 0 [.acqFail "x"] = some (⟨0, "", false, some "获取连接失败：x"⟩, 0) := by
  refine ⟨by decide, ?_, ipc_retry_policy.2.1 0 404 "not found" [],
    ipc_retry_policy.2.2.1 0 "x" []⟩
  rw [ipc_retry_policy.2.2.2.1 0 "Broken pipe" [.respOk 200 "body"] (by decide),
    ipc_retry_policy.2.1 1 200 "body" []]
  rfl

/-! ## C2 — starting the core twice -/

/-- **C2, counterexample.** The claim says a second `start` fails with an
AlreadyRunning-style error and leaves the running core untouched *in both
modes*.  That is what the direct-process manager does — but the Service's
`ClashManager::start` does the opposite: with a core already running (pid 100)
it first stops the old instance and then spawns a new one (pid 200),
returning success.  The two modes are observably different, and in
Service-owned mode the second `start` neither fails nor leaves the first
instance untouched. -/
theorem start_twice_counterexample :
    startClashProcessHandle (some 100) (.ok 200) =
      (some 100, ⟨false, some "进程已在运行", none⟩) ∧
    clashManagerStart (some 100) true true (.ok 200) = (some 200, true, .ok ()) := by
  exact ⟨rfl, rfl⟩

/-- **C2, amended.** In direct-process mode a second `start` fails with the
already-running error and leaves the tracked process untouched; in
Service-owned mode `ClashManager::start` instead stops the existing instance
first and, when the paths check out and the spawn succeeds, starts a fresh
core with a new pid — so the two modes do not exhibit the same observable
behaviour. -/
theorem start_twice_modes_differ :
    (∀ (pid : Nat) (spawn : Except String Nat),
      startClashProcessHandle (some pid) spawn =
        (some pid, ⟨false, some "进程已在运行", none⟩)) ∧
    (∀ spawn : Except String Nat,
      startClashProcessHandle none spawn =
        match spawn with
        | .ok pid => (some pid, ⟨true, none, some pid⟩)
        | .error e => (none, ⟨false, some e, none⟩)) ∧
    (∀ (pid newPid : Nat),
      clashManagerStart (some pid) true true (.ok newPid) =
        (some newPid, true, .ok ())) ∧
    (∀ (pid : Nat) (coreExists configExists : Bool) (spawn : Except String Nat),
      (clashManagerStart (some pid) coreExists configExists spawn).2.1 = true) := by
  refine ⟨fun _ _ => rfl, fun spawn => ?_, fun _ _ => rfl, ?_⟩
  · cases spawn <;> rfl
  · intro pid ce cf spawn
    simp only [clashManagerStart]
    split_ifs <;> first | rfl | (cases spawn <;> rfl)

/-- Witness for C2 (amended) at concrete inputs. -/
theorem start_twice_modes_differ_witness :
    startClashProcessHandle (some 7) (.error "boom") =
      (some 7, ⟨false, some "进程已在运行", none⟩) ∧
    clashManagerStart (some 7) true true (.ok 8) = (some 8, true, .ok ()) ∧
    (clashManagerStart (some 7) false true (.error "x")).2.1 = true :=
  ⟨start_twice_modes_differ.1 7 (.error "boom"),
    start_twice_modes_differ.2.2.1 7 8,
    start_twice_modes_differ.2.2.2 7 false true (.error "x")⟩

/-! ## C10 — percent-decoding failures become empty names -/

/-- **C10.** When the percent-decoded bytes of a URI fragment or
query-parameter value are not valid UTF-8, `url_decode` does not fail and does
not keep the raw text: the error is silently replaced by the empty string, so
a VLESS proxy parsed from such a URI carries an empty name; when the bytes are
valid UTF-8 the decoded text is returned. -/
theorem url_decode_invalid_utf8_gives_empty :
    (∀ s : String, utf8Decode (pctDecode s.toList) = none →
      urlDecode s = "" ∧ (s ≠ "" → urlDecode s ≠ s) ∧ vlessName (some s) = "") ∧
    (∀ (s : String) (chars : List Char), utf8Decode (pctDecode s.toList) = some chars →
      urlDecode s = String.mk chars) := by
  constructor
  · intro s h
    have hu : urlDecode s = "" := by
      unfold urlDecode
      rw [h]
    refine ⟨hu, fun hne => ?_, ?_⟩
    · rw [hu]
      exact fun hc => hne hc.symm
    · simpa [vlessName, Option.getD] using hu
  · intro s chars h
    unfold urlDecode
    rw [h]

/-- Witness for C10: the fragment `%FF` decodes to the lone byte 0xFF, which
is not valid UTF-8, so the node name is empty; `a%20b` decodes to `a b`. -/
theorem url_decode_invalid_utf8_gives_empty_witness :
    utf8Decode (pctDecode "%FF".toList) = none ∧
    urlDecode "%FF" = "" ∧ ("%FF" ≠ "" → urlDecode "%FF" ≠ "%FF") ∧
    vlessName (some "%FF") = "" ∧
    urlDecode "a%20b" = String.mk ['a', ' ', 'b'] :=
  ⟨by decide,
    (url_decode_invalid_utf8_gives_empty.1 "%FF" (by decide)).1,
    (url_decode_invalid_utf8_gives_empty.1 "%FF" (by decide)).2.1,
    (url_decode_invalid_utf8_gives_empty.1 "%FF" (by decide)).2.2,
    url_decode_invalid_utf8_gives_empty.2 "a%20b" ['a', ' ', 'b'] (by decide)⟩

/-! ## C8 — the Base64 shape test and decode step -/

/-- **C8, counterexample.** The claimed shape test restricts characters to the
ASCII alphabet `[A-Za-z0-9+/=]`, but `is_base64` uses Rust's Unicode
`char::is_alphanumeric`: a body of 51 CJK ideographs passes the code's test
(so a decode *is* attempted, which then fails and the original body is kept),
while the claimed alphabet test rejects it. -/
theorem base64_shape_unicode_counterexample :
    isBase64 (String.mk (List.replicate 51 '中')) = true ∧
    specBase64Shape (String.mk (List.replicate 51 '中')) = false ∧
    decodeBody (String.mk (List.replicate 51 '中')) = String.mk (List.replicate 51 '中') := by
  exact ⟨by decide, by decide, by decide⟩

/-- **C8, amended.** `parse_subscription` attempts Base64 decoding of the
trimmed body exactly when `is_base64` holds — after stripping whitespace the
remaining *byte* length exceeds 50 and every remaining character is Unicode
alphanumeric (not merely ASCII `[A-Za-z0-9]`) or `+`, `/`, `=` — and on a
successful decode to valid UTF-8 the body is replaced by the decoded text,
while on any decode or UTF-8 failure the original (trimmed) body is kept. -/
theorem base64_stage_behaviour :
    (∀ s : String, isBase64 s = true ↔
      (50 < (stripWs s).utf8ByteSize ∧
        ∀ c ∈ (stripWs s).toList,
          rustIsAlphanumeric c = true ∨ c = '+' ∨ c = '/' ∨ c = '=')) ∧
    (∀ content : String, isBase64 (rustTrim content) = false →
      decodeBody content = rustTrim content) ∧
    (∀ (content : String) (bytes : List Nat) (chars : List Char),
      isBase64 (rustTrim content) = true →
      b64Decode (stripWs (rustTrim content)).toList = some bytes →
      utf8Decode bytes = some chars →
      decodeBody content = String.mk chars) ∧
    (∀ content : String, isBase64 (rustTrim content) = true →
      b64Decode (stripWs (rustTrim content)).toList = none →
      decodeBody content = rustTrim content) ∧
    (∀ (content : String) (bytes : List Nat),
      isBase64 (rustTrim content) = true →
      b64Decode (stripWs (rustTrim content)).toList = some bytes →
      utf8Decode bytes = none →
      decodeBody content = rustTrim content) := by
  refine ⟨?_, ?_, ?_, ?_, ?_⟩
  · intro s
    simp only [isBase64, Bool.and_eq_true, decide_eq_true_eq, List.all_eq_true,
      Bool.or_eq_true, decide_eq_true_eq]
    constructor
    · rintro ⟨h1, h2⟩
      exact ⟨h1, fun c hc => by have := h2 c hc; tauto⟩
    · rintro ⟨h1, h2⟩
      exact ⟨h1, fun c hc => by have := h2 c hc; tauto⟩
  · intro content h
    simp only [decodeBody, h, Bool.false_eq_true, if_false]
  · intro content bytes chars h hb hu
    simp only [decodeBody, h, if_true]
    rw [hb]
    simp only [hu]
  · intro content h hb
    simp only [decodeBody, h, if_true]
    rw [hb]
  · intro content bytes h hb hu
    simp only [decodeBody, h, if_true]
    rw [hb]
    simp only [hu]

/-- Witness for C8 at concrete inputs: a 52-character run of `A` passes the
shape test, decodes to 39 zero bytes and replaces the body with the decoded
text; a short body is left alone; the 51-ideograph body fails the decode and
is kept. -/
theorem base64_stage_behaviour_witness :
    isBase64 (String.mk (List.replicate 52 'A')) = true ∧
    decodeBody (String.mk (List.replicate 52 'A')) =
      String.mk (List.replicate 39 (Char.ofNat 0)) ∧
    isBase64 (rustTrim "proxies short") = false ∧
    decodeBody "proxies short" = rustTrim "proxies short" ∧
    decodeBody (String.mk (List.replicate 51 '中')) =
      rustTrim (String.mk (List.replicate 51 '中')) := by
  refine ⟨by decide, ?_, by decide, ?_, ?_⟩
  · have ht : rustTrim (String.mk (List.replicate 52 'A')) =
        String.mk (List.replicate 52 'A') := by decide
    have h := base64_stage_behaviour.2.2.1 (String.mk (List.replicate 52 'A'))
      (List.replicate 39 0) (List.replicate 39 (Char.ofNat 0))
      (by rw [ht]; decide) (by rw [ht]; decide) (by decide)
    exact h
  · exact base64_stage_behaviour.2.1 "proxies short" (by decide)
  · exact base64_stage_behaviour.2.2.2.1 (String.mk (List.replicate 51 '中'))
      (by decide) (by decide)

/-! ## C7 — re-feeding the parser its own output -/

theorem hasSub_infix_iff (s pat : String) :
    hasSub s pat = true ↔ pat.toList <:+: s.toList := by
  simp only [hasSub, List.any_eq_true, List.mem_tails, List.isPrefixOf_iff_prefix]
  constructor
  · rintro ⟨t, hsuffix, hpre⟩
    exact List.infix_iff_prefix_suffix.mpr ⟨t, hpre, hsuffix⟩
  · intro h
    obtain ⟨t, hpre, hsuffix⟩ := List.infix_iff_prefix_suffix.mp h
    exact ⟨t, hsuffix, hpre⟩

theorem isBase64_false_of_proxies (s : String)
    (h : hasSub s "proxies:" = true) : isBase64 s = false := by
  have hinf := (hasSub_infix_iff s "proxies:").mp h
  have hc : ':' ∈ s.toList := hinf.mem (by decide)
  have hcs : ':' ∈ (stripWs s).toList := by
    simp only [stripWs]
    exact List.mem_filter.mpr ⟨hc, by decide⟩
  have hall : ((stripWs s).toList.all
      (fun c => rustIsAlphanumeric c || c = '+' || c = '/' || c = '=')) = false := by
    rw [List.all_eq_false]
    exact ⟨':', hcs, by decide⟩
  simp only [isBase64]
  rw [hall, Bool.and_false]

/-- **C7, counterexample.** The parser is deterministic (it is a function),
but re-feeding its own output is *not* the identity: the Base64 body
`cexBody` decodes to a YAML configuration ending in a newline, which the
parser returns verbatim; feeding that output back trims it first, so the
second parse returns the document without its trailing newline — a different
string.  (The YAML-validity oracle is instantiated with `yamlOkAll`; the two
strings it is consulted on here are genuinely valid YAML.) -/
theorem reparse_not_identity_counterexample :
    parseSubYamlStage yamlOkAll cexBody = some cexDoc ∧
    parseSubYamlStage yamlOkAll cexDoc = some (rustTrim cexDoc) ∧
    rustTrim cexDoc ≠ cexDoc := by
  exact ⟨by decide, by decide, by decide⟩

/-- **C7, amended.** The subscription parser is deterministic, and re-feeding
an output of its YAML stage yields that output *trimmed*: whenever
`parse_subscription` returns a document `d` through the full-configuration
branch and the trimmed document still passes the YAML-configuration check,
parsing `d` returns `rustTrim d`; the result equals `d` itself exactly when
`d` carries no surrounding whitespace (base64-decoded bodies and generated
configurations end in a newline, so for them equality fails). -/
theorem reparse_returns_trimmed :
    ∀ (yamlOk : String → Bool) (x d : String),
      parseSubYamlStage yamlOk x = some d →
      isYamlConfig yamlOk (rustTrim d) = true →
      parseSubYamlStage yamlOk d = some (rustTrim d) ∧
      (rustTrim d = d → parseSubYamlStage yamlOk d = some d) := by
  intro yamlOk x d _hx hcfg
  have hproxies : hasSub (rustTrim d) "proxies:" = true := by
    by_cases hy : yamlOk (rustTrim d)
    · simp only [isYamlConfig, hy, Bool.not_true, Bool.false_eq_true, if_false,
        Bool.and_eq_true] at hcfg
      exact hcfg.1
    · simp [isYamlConfig, hy] at hcfg
  have hdecode : decodeBody d = rustTrim d := by
    simp only [decodeBody, isBase64_false_of_proxies (rustTrim d) hproxies,
      Bool.false_eq_true, if_false]
  have hmain : parseSubYamlStage yamlOk d = some (rustTrim d) := by
    simp only [parseSubYamlStage, hdecode, hcfg, if_true]
  exact ⟨hmain, fun htrim => by rw [hmain, htrim]⟩

/-- Witness for C7 (amended) at the concrete counterexample body. -/
theorem reparse_returns_trimmed_witness :
    parseSubYamlStage yamlOkAll cexBody = some cexDoc ∧
    isYamlConfig yamlOkAll (rustTrim cexDoc) = true ∧
    parseSubYamlStage yamlOkAll cexDoc = some (rustTrim cexDoc) :=
  ⟨by decide, by decide,
    (reparse_returns_trimmed yamlOkAll cexBody cexDoc (by decide) (by decide)).1⟩

/-! ## C9 — cycle detection and which group the error names -/

theorem perm_pair_cases (l : List String) (a b : String) (h : l.Perm [a, b]) :
    l = [a, b] ∨ l = [b, a] := by
  match l, h.length_eq with
  | [x, y], _ =>
    have hx : x ∈ [a, b] := h.mem_iff.mp (by simp)
    simp only [List.mem_cons, List.mem_singleton, List.not_mem_nil, or_false] at hx
    rcases hx with rfl | rfl
    · left
      have h1 : [y].Perm [b] := h.cons_inv
      rw [List.perm_singleton.mp h1]
    · right
      have h2 : ([x, y]).Perm [x, a] := h.trans (List.Perm.swap x a [])
      have h1 : [y].Perm [a] := h2.cons_inv
      rw [List.perm_singleton.mp h1]

/-- **C9, counterexample.** On the two-group cycle `G1 → G2 → G1`, the claim
expects an error whose message names `G1`.  The scan iterates
`graph.keys()` in the `HashMap`'s order, which Rust leaves unspecified and
randomises per process; when `G2` is visited first the single reported error
names `G2`, and its message does not mention `G1` at all. -/
theorem cycle_error_names_g2_counterexample :
    checkGroupCycles ["G2", "G1"] rootG1G2 = [cycleErr "G2"] ∧
    hasSub (cycleErr "G2").message "G1" = false ∧
    (cycleErr "G2").category = "代理组配置" := by
  exact ⟨by decide, by decide, rfl⟩

/-- **C9, amended.** On the two-group cycle the validator does detect the
cycle via the DFS with a recursion stack, and — whichever of the two possible
`HashMap` iteration orders occurs — returns exactly one error in the
proxy-groups category (`代理组配置`) whose message names the first-visited
group of the cycle: `G1` or `G2`, not necessarily `G1`. -/
theorem cycle_detected_names_first_visited :
    ∀ order : List String, order.Perm ["G1", "G2"] →
      ∃ n, (n = "G1" ∨ n = "G2") ∧
        checkGroupCycles order rootG1G2 = [cycleErr n] ∧
        (cycleErr n).category = "代理组配置" ∧
        hasSub (cycleErr n).message n = true := by
  intro order hperm
  rcases perm_pair_cases order "G1" "G2" hperm with rfl | rfl
  · exact ⟨"G1", Or.inl rfl, by decide, rfl, by decide⟩
  · exact ⟨"G2", Or.inr rfl, by decide, rfl, by decide⟩

/-- Witness for C9 (amended) at the iteration order `["G1", "G2"]`. -/
theorem cycle_detected_names_first_visited_witness :
    (["G1", "G2"] : List String).Perm ["G1", "G2"] ∧
    (∃ n, (n = "G1" ∨ n = "G2") ∧
      checkGroupCycles ["G1", "G2"] rootG1G2 = [cycleErr n] ∧
      (cycleErr n).category = "代理组配置" ∧
      hasSub (cycleErr n).message n = true) :=
  ⟨List.Perm.refl _, cycle_detected_names_first_visited ["G1", "G2"] (List.Perm.refl _)⟩

/-! ## C6 — injector idempotence: mapping lemmas -/

theorem getY_cons_self (k : String) (v1 : Yval) (t : Ymap) :
    getY k ((k, v1) :: t) = some v1 := by
  simp [getY]

theorem getY_cons_ne (k1 k : String) (v1 : Yval) (t : Ymap) (h : k1 ≠ k) :
    getY k ((k1, v1) :: t) = getY k t := by
  simp [getY, h]

theorem insertY_cons_self (k : String) (v v1 : Yval) (t : Ymap) :
    insertY k v ((k, v1) :: t) = (k, v) :: t := by
  simp [insertY]

theorem insertY_cons_ne (k1 k : String) (v v1 : Yval) (t : Ymap) (h : k1 ≠ k) :
    insertY k v ((k1, v1) :: t) = (k1, v1) :: insertY k v t := by
  simp [insertY, h]

theorem getY_insertY_self (k : String) (v : Yval) (m : Ymap) :
    getY k (insertY k v m) = some v := by
  induction m with
  | nil => simp [insertY, getY]
  | cons p t ih =>
    obtain ⟨k', v'⟩ := p
    by_cases h : k' = k
    · simp [insertY, h, getY]
    · simp [insertY, h, getY, ih]

theorem getY_insertY_ne (k' k : String) (v : Yval) (m : Ymap) (hne : k' ≠ k) :
    getY k (insertY k' v m) = getY k m := by
  induction m with
  | nil => simp [insertY, getY, hne]
  | cons p t ih =>
    obtain ⟨k1, v1⟩ := p
    by_cases h : k1 = k'
    · subst h
      rw [insertY_cons_self, getY_cons_ne _ _ _ _ hne, getY_cons_ne _ _ _ _ hne]
    · rw [insertY_cons_ne _ _ _ _ _ h]
      by_cases h2 : k1 = k
      · subst h2
        rw [getY_cons_self, getY_cons_self]
      · rw [getY_cons_ne _ _ _ _ h2, getY_cons_ne _ _ _ _ h2]
        exact ih

theorem insertY_getY_id (k : String) (v : Yval) (m : Ymap) (h : getY k m = some v) :
    insertY k v m = m := by
  induction m with
  | nil => simp [getY] at h
  | cons p t ih =>
    obtain ⟨k1, v1⟩ := p
    by_cases hk : k1 = k
    · subst hk
      have hv : v1 = v := by simpa [getY] using h
      subst hv
      simp [insertY]
    · simp only [getY, if_neg hk] at h
      simp [insertY, hk, ih h]

theorem getY_eq_none_iff (k : String) (m : Ymap) :
    getY k m = none ↔ k ∉ keysY m := by
  induction m with
  | nil => simp [getY, keysY]
  | cons p t ih =>
    obtain ⟨k1, v1⟩ := p
    by_cases hk : k1 = k
    · subst hk
      simp [getY, keysY]
    · simp only [getY, if_neg hk, keysY, List.map_cons, List.mem_cons]
      rw [ih]
      constructor
      · intro hnot hc
        rcases hc with hc | hc
        · exact hk hc.symm
        · exact hnot hc
      · intro hnot hc
        exact hnot (Or.inr hc)

theorem mem_of_getY_some (k : String) (v : Yval) (m : Ymap) (h : getY k m = some v) :
    (k, v) ∈ m := by
  induction m with
  | nil => simp [getY] at h
  | cons p t ih =>
    obtain ⟨k1, v1⟩ := p
    by_cases hk : k1 = k
    · subst hk
      have hv : v1 = v := by simpa [getY] using h
      subst hv
      simp
    · simp only [getY, if_neg hk] at h
      simp [ih h]

theorem getY_some_of_mem_nodup (k : String) (v : Yval) (m : Ymap)
    (hnd : (keysY m).Nodup) (hm : (k, v) ∈ m) : getY k m = some v := by
  induction m with
  | nil => simp at hm
  | cons p t ih =>
    obtain ⟨k1, v1⟩ := p
    simp only [keysY, List.map_cons, List.nodup_cons] at hnd
    rcases List.mem_cons.mp hm with heq | hmem
    · cases heq
      simp [getY]
    · have hk : k1 ≠ k := by
        intro hc
        subst hc
        exact hnd.1 (List.mem_map.mpr ⟨(k1, v), hmem, rfl⟩)
      simp only [getY, if_neg hk]
      exact ih hnd.2 hmem

theorem getY_perm_nodup (k : String) (m m' : Ymap) (hnd : (keysY m).Nodup)
    (hp : m.Perm m') : getY k m = getY k m' := by
  have hnd' : (keysY m').Nodup := ((hp.map Prod.fst).nodup_iff).mp hnd
  cases hg : getY k m with
  | some v =>
    exact (getY_some_of_mem_nodup k v m' hnd' (hp.mem_iff.mp (mem_of_getY_some k v m hg))).symm
  | none =>
    have hk : k ∉ keysY m := (getY_eq_none_iff k m).mp hg
    have hk' : k ∉ keysY m' := fun hc => hk (((hp.map Prod.fst).mem_iff).mpr hc)
    exact ((getY_eq_none_iff k m').mpr hk').symm

theorem removeSwapY_perm_eraseP (k : String) (m : Ymap) :
    (removeSwapY k m).Perm (m.eraseP (fun p => p.1 == k)) := by
  induction m with
  | nil => simp [removeSwapY]
  | cons p t ih =>
    obtain ⟨k1, v1⟩ := p
    by_cases hk : k1 = k
    · rw [List.eraseP_cons_of_pos (by simp [hk])]
      simp only [removeSwapY, if_pos hk]
      cases hl : t.getLast? with
      | none =>
        rw [List.getLast?_eq_none_iff.mp hl]
      | some z =>
        have hz : t ≠ [] := by
          intro hc
          rw [hc] at hl
          simp at hl
        have : t.dropLast ++ [z] = t := by
          have hg : t.getLast hz = z := by
            rw [List.getLast?_eq_getLast t hz] at hl
            exact Option.some.inj hl
          rw [← hg]
          exact List.dropLast_append_getLast hz
        calc (z :: t.dropLast).Perm (t.dropLast ++ [z]) :=
              (List.perm_append_singleton z t.dropLast).symm
          _ = t := this
    · rw [List.eraseP_cons_of_neg (by simp [hk])]
      simp only [removeSwapY, if_neg hk]
      exact ih.cons _

theorem getY_eraseP_ne (k' k : String) (m : Ymap) (hne : k' ≠ k) :
    getY k (m.eraseP (fun p => p.1 == k')) = getY k m := by
  induction m with
  | nil => simp
  | cons p t ih =>
    obtain ⟨k1, v1⟩ := p
    by_cases hk : k1 = k'
    · rw [List.eraseP_cons_of_pos (by simp [hk])]
      subst hk
      simp [getY, hne]
    · rw [List.eraseP_cons_of_neg (by simp [hk])]
      by_cases h2 : k1 = k
      · simp [getY, h2]
      · simp [getY, h2, ih]

theorem getY_eraseP_self (k : String) (m : Ymap) (hnd : (keysY m).Nodup) :
    getY k (m.eraseP (fun p => p.1 == k)) = none := by
  induction m with
  | nil => simp [getY]
  | cons p t ih =>
    obtain ⟨k1, v1⟩ := p
    simp only [keysY, List.map_cons, List.nodup_cons] at hnd
    by_cases hk : k1 = k
    · rw [List.eraseP_cons_of_pos (by simp [hk])]
      subst hk
      rw [getY_eq_none_iff]
      intro hc
      exact hnd.1 hc
    · rw [List.eraseP_cons_of_neg (by simp [hk])]
      simp only [getY, if_neg hk]
      exact ih hnd.2

theorem nodup_keysY_removeSwapY (k : String) (m : Ymap) (hnd : (keysY m).Nodup) :
    (keysY (removeSwapY k m)).Nodup := by
  have h1 : (keysY (removeSwapY k m)).Perm (keysY (m.eraseP (fun p => p.1 == k))) :=
    (removeSwapY_perm_eraseP k m).map Prod.fst
  have h2 : (keysY (m.eraseP (fun p => p.1 == k))).Nodup :=
    hnd.sublist ((List.eraseP_sublist m).map Prod.fst)
  exact h1.nodup_iff.mpr h2

theorem getY_removeSwapY_ne (k' k : String) (m : Ymap) (hnd : (keysY m).Nodup)
    (hne : k' ≠ k) : getY k (removeSwapY k' m) = getY k m := by
  have hp := removeSwapY_perm_eraseP k' m
  have hnd1 : (keysY (removeSwapY k' m)).Nodup := by
    have h2 : (keysY (m.eraseP (fun p => p.1 == k'))).Nodup :=
      hnd.sublist ((List.eraseP_sublist m).map Prod.fst)
    exact ((hp.map Prod.fst).nodup_iff).mpr h2
  rw [getY_perm_nodup k _ _ hnd1 hp]
  exact getY_eraseP_ne k' k m hne

theorem getY_removeSwapY_self (k : String) (m : Ymap) (hnd : (keysY m).Nodup) :
    getY k (removeSwapY k m) = none := by
  have hp := removeSwapY_perm_eraseP k m
  have hnd1 : (keysY (removeSwapY k m)).Nodup := nodup_keysY_removeSwapY k m hnd
  rw [getY_perm_nodup k _ _ hnd1 hp]
  exact getY_eraseP_self k m hnd

theorem removeSwapY_id_of_none (k : String) (m : Ymap) (h : getY k m = none) :
    removeSwapY k m = m := by
  induction m with
  | nil => rfl
  | cons p t ih =>
    obtain ⟨k1, v1⟩ := p
    by_cases hk : k1 = k
    · subst hk
      simp [getY] at h
    · simp only [getY, if_neg hk] at h
      simp [removeSwapY, hk, ih h]

theorem mem_keysY_insertY (a k : String) (v : Yval) (m : Ymap) :
    a ∈ keysY (insertY k v m) ↔ a = k ∨ a ∈ keysY m := by
  induction m with
  | nil => simp [insertY, keysY]
  | cons p t ih =>
    obtain ⟨k1, v1⟩ := p
    by_cases hk : k1 = k
    · subst hk
      rw [insertY_cons_self]
      simp only [keysY, List.map_cons, List.mem_cons]
      tauto
    · rw [insertY_cons_ne _ _ _ _ _ hk]
      simp only [keysY, List.map_cons, List.mem_cons] at ih ⊢
      rw [ih]
      tauto

theorem nodup_keysY_insertY (k : String) (v : Yval) (m : Ymap)
    (hnd : (keysY m).Nodup) : (keysY (insertY k v m)).Nodup := by
  induction m with
  | nil => simp [insertY, keysY]
  | cons p t ih =>
    obtain ⟨k1, v1⟩ := p
    simp only [keysY, List.map_cons, List.nodup_cons] at hnd
    by_cases hk : k1 = k
    · subst hk
      rw [insertY_cons_self]
      simp only [keysY, List.map_cons, List.nodup_cons]
      exact hnd
    · rw [insertY_cons_ne _ _ _ _ _ hk]
      simp only [keysY, List.map_cons, List.nodup_cons]
      constructor
      · intro hc
        rcases (mem_keysY_insertY k1 k v t).mp hc with h | h
        · exact hk h
        · exact hnd.1 h
      · exact ih hnd.2

/-! ### Equality of the duplicated injector steps with their shared forms -/

theorem ecStepM_eq_core (p : ParamsM) (m : Ymap) :
    ecStepM p m = ecStepCore p.externalController p.externalControllerSecret m := rfl

theorem ecStepC_eq_core (p : ParamsC) (m : Ymap) :
    ecStepC p m = ecStepCore p.externalController p.externalControllerSecret m := rfl

theorem kaStepM_eq_core (p : ParamsM) (m : Ymap) :
    kaStepM p m = kaStepCore p.isKeepAliveEnabled p.keepAliveInterval m := rfl

theorem kaStepC_eq_core (p : ParamsC) (m : Ymap) :
    kaStepC p m = kaStepCore p.keepAliveEnabled p.keepAliveInterval m := rfl

theorem emVal_contains_of_ne (d : Ymap) (h : emVal d ≠ "fake-ip") :
    containsKeyY "enhanced-mode" d = true := by
  unfold emVal at h
  cases hg : getY "enhanced-mode" d with
  | none => simp [hg] at h
  | some v => simp [containsKeyY, hg]

theorem emVal_eq_of_not_contains (d : Ymap) (h : containsKeyY "enhanced-mode" d = false) :
    emVal d = "fake-ip" := by
  unfold emVal
  cases hg : getY "enhanced-mode" d with
  | none => rfl
  | some v => simp [containsKeyY, hg] at h

theorem injectDnsConfigM_eq_fillApply (p : ParamsM) (m : Ymap) :
    injectDnsConfigM p m = dnsFillApply p.isIpv6Enabled m := by
  unfold injectDnsConfigM dnsFillApply
  dsimp only
  split_ifs with h1 h2 h2
  · exact absurd h2 h1.1
  · rfl
  · rfl
  · exact absurd ⟨h2, emVal_contains_of_ne _ h2⟩ h1

theorem injectDnsConfigC_eq_fillApply (p : ParamsC) (m : Ymap) :
    injectDnsConfigC p m = dnsFillApply p.ipv6 m := by
  unfold injectDnsConfigC dnsFillApply
  dsimp only
  split_ifs with h1 h2 h2
  · rfl
  · rcases h1 with h | h
    · exact absurd h h2
    · exact absurd (emVal_eq_of_not_contains _ (by simpa using h)) h2
  · exact absurd (Or.inl h2) h1
  · rfl

/-! ### DNS defaults: transport and fixpoint lemmas -/

theorem getY_ite_then_insertY {c : Prop} [Decidable c] (k' k : String) (v : Yval)
    (x : Ymap) (h : k' ≠ k) :
    getY k (if c then insertY k' v x else x) = getY k x := by
  split_ifs with hc
  · exact getY_insertY_ne k' k v x h
  · rfl

theorem getY_ite_else_insertY {c : Prop} [Decidable c] (k' k : String) (v : Yval)
    (x : Ymap) (h : k' ≠ k) :
    getY k (if c then x else insertY k' v x) = getY k x := by
  split_ifs with hc
  · rfl
  · exact getY_insertY_ne k' k v x h

theorem nsMissingOrEmpty_congr (k : String) (m m' : Ymap)
    (h : getY k m = getY k m') : nsMissingOrEmpty k m = nsMissingOrEmpty k m' := by
  unfold nsMissingOrEmpty containsKeyY
  rw [h]

theorem getY_dnsDefaultsFill_enable (ipv6 : Bool) (d0 : Ymap) :
    getY "enable" (dnsDefaultsFill ipv6 d0) = some (.boolv true) := by
  unfold dnsDefaultsFill
  dsimp only
  rw [getY_ite_then_insertY _ _ _ _ (by decide), getY_ite_then_insertY _ _ _ _ (by decide),
    getY_ite_else_insertY _ _ _ _ (by decide), getY_ite_else_insertY _ _ _ _ (by decide),
    getY_insertY_ne _ _ _ _ (by decide), getY_insertY_self]

theorem getY_dnsDefaultsFill_ipv6 (ipv6 : Bool) (d0 : Ymap) :
    getY "ipv6" (dnsDefaultsFill ipv6 d0) = some (.boolv ipv6) := by
  unfold dnsDefaultsFill
  dsimp only
  rw [getY_ite_then_insertY _ _ _ _ (by decide), getY_ite_then_insertY _ _ _ _ (by decide),
    getY_ite_else_insertY _ _ _ _ (by decide), getY_ite_else_insertY _ _ _ _ (by decide),
    getY_insertY_self]

theorem containsKeyY_congr (k : String) (m m' : Ymap)
    (h : getY k m = getY k m') : containsKeyY k m = containsKeyY k m' := by
  unfold containsKeyY
  rw [h]

theorem getY_dnsDefaultsFill_em (ipv6 : Bool) (d0 : Ymap) :
    getY "enhanced-mode" (dnsDefaultsFill ipv6 d0) =
      match getY "enhanced-mode" d0 with
      | some v => some v
      | none => some (.str "fake-ip") := by
  unfold dnsDefaultsFill
  dsimp only
  rw [getY_ite_then_insertY _ _ _ _ (by decide), getY_ite_then_insertY _ _ _ _ (by decide),
    getY_ite_else_insertY _ _ _ _ (by decide)]
  have htrans : getY "enhanced-mode"
      (insertY "ipv6" (.boolv ipv6) (insertY "enable" (.boolv true) d0)) =
      getY "enhanced-mode" d0 := by
    rw [getY_insertY_ne _ _ _ _ (by decide), getY_insertY_ne _ _ _ _ (by decide)]
  by_cases hc : containsKeyY "enhanced-mode"
      (insertY "ipv6" (.boolv ipv6) (insertY "enable" (.boolv true) d0)) = true
  · rw [if_pos hc, htrans]
    unfold containsKeyY at hc
    rw [htrans] at hc
    cases hg : getY "enhanced-mode" d0 with
    | none => rw [hg] at hc; simp at hc
    | some v => rfl
  · rw [if_neg hc, getY_insertY_self]
    unfold containsKeyY at hc
    rw [htrans] at hc
    cases hg : getY "enhanced-mode" d0 with
    | none => rfl
    | some v => rw [hg] at hc; simp at hc

theorem contains_em_dnsDefaultsFill (ipv6 : Bool) (d0 : Ymap) :
    containsKeyY "enhanced-mode" (dnsDefaultsFill ipv6 d0) = true := by
  unfold containsKeyY
  rw [getY_dnsDefaultsFill_em]
  cases getY "enhanced-mode" d0 <;> rfl

theorem contains_range_dnsDefaultsFill (ipv6 : Bool) (d0 : Ymap) :
    containsKeyY "fake-ip-range" (dnsDefaultsFill ipv6 d0) = true := by
  unfold dnsDefaultsFill
  dsimp only
  generalize (if containsKeyY "enhanced-mode"
      (insertY "ipv6" (.boolv ipv6) (insertY "enable" (.boolv true) d0)) = true then
      insertY "ipv6" (.boolv ipv6) (insertY "enable" (.boolv true) d0)
    else
      insertY "enhanced-mode" (.str "fake-ip")
        (insertY "ipv6" (.boolv ipv6) (insertY "enable" (.boolv true) d0))) = d3
  rw [containsKeyY_congr _ _ _ (getY_ite_then_insertY _ _ _ _ (by decide)),
    containsKeyY_congr _ _ _ (getY_ite_then_insertY _ _ _ _ (by decide))]
  by_cases hc : containsKeyY "fake-ip-range" d3 = true
  · rw [if_pos hc]
    exact hc
  · rw [if_neg hc]
    unfold containsKeyY
    rw [getY_insertY_self]
    rfl

theorem nsMissingOrEmpty_of_get_defaults (k : String) (m : Ymap) (a b c : Yval)
    (h : getY k m = some (.seq [a, b, c])) : nsMissingOrEmpty k m = false := by
  unfold nsMissingOrEmpty containsKeyY
  rw [h]
  rfl

theorem nsMissing_nameserver_dnsDefaultsFill (ipv6 : Bool) (d0 : Ymap) :
    nsMissingOrEmpty "nameserver" (dnsDefaultsFill ipv6 d0) = false := by
  unfold dnsDefaultsFill
  dsimp only
  generalize (if containsKeyY "fake-ip-range"
      (if containsKeyY "enhanced-mode"
          (insertY "ipv6" (.boolv ipv6) (insertY "enable" (.boolv true) d0)) = true then
        insertY "ipv6" (.boolv ipv6) (insertY "enable" (.boolv true) d0)
      else
        insertY "enhanced-mode" (.str "fake-ip")
          (insertY "ipv6" (.boolv ipv6) (insertY "enable" (.boolv true) d0))) = true then
      (if containsKeyY "enhanced-mode"
          (insertY "ipv6" (.boolv ipv6) (insertY "enable" (.boolv true) d0)) = true then
        insertY "ipv6" (.boolv ipv6) (insertY "enable" (.boolv true) d0)
      else
        insertY "enhanced-mode" (.str "fake-ip")
          (insertY "ipv6" (.boolv ipv6) (insertY "enable" (.boolv true) d0)))
    else
      insertY "fake-ip-range" (.str "198.18.0.1/16")
        (if containsKeyY "enhanced-mode"
            (insertY "ipv6" (.boolv ipv6) (insertY "enable" (.boolv true) d0)) = true then
          insertY "ipv6" (.boolv ipv6) (insertY "enable" (.boolv true) d0)
        else
          insertY "enhanced-mode" (.str "fake-ip")
            (insertY "ipv6" (.boolv ipv6) (insertY "enable" (.boolv true) d0)))) = d4
  rw [nsMissingOrEmpty_congr _ _ _ (getY_ite_then_insertY _ _ _ _ (by decide))]
  by_cases hns : nsMissingOrEmpty "nameserver" d4 = true
  · rw [if_pos hns]
    exact nsMissingOrEmpty_of_get_defaults _ _ _ _ _ (getY_insertY_self _ _ _)
  · rw [if_neg hns]
    simpa using hns

theorem nsMissing_defaultns_dnsDefaultsFill (ipv6 : Bool) (d0 : Ymap) :
    nsMissingOrEmpty "default-nameserver" (dnsDefaultsFill ipv6 d0) = false := by
  unfold dnsDefaultsFill
  dsimp only
  by_cases hns : nsMissingOrEmpty "default-nameserver"
      (if nsMissingOrEmpty "nameserver"
          (if containsKeyY "fake-ip-range"
              (if containsKeyY "enhanced-mode"
                  (insertY "ipv6" (.boolv ipv6) (insertY "enable" (.boolv true) d0)) = true then
                insertY "ipv6" (.boolv ipv6) (insertY "enable" (.boolv true) d0)
              else
                insertY "enhanced-mode" (.str "fake-ip")
                  (insertY "ipv6" (.boolv ipv6) (insertY "enable" (.boolv true) d0))) = true then
            (if containsKeyY "enhanced-mode"
                (insertY "ipv6" (.boolv ipv6) (insertY "enable" (.boolv true) d0)) = true then
              insertY "ipv6" (.boolv ipv6) (insertY "enable" (.boolv true) d0)
            else
              insertY "enhanced-mode" (.str "fake-ip")
                (insertY "ipv6" (.boolv ipv6) (insertY "enable" (.boolv true) d0)))
          else
            insertY "fake-ip-range" (.str "198.18.0.1/16")
              (if containsKeyY "enhanced-mode"
                  (insertY "ipv6" (.boolv ipv6) (insertY "enable" (.boolv true) d0)) = true then
                insertY "ipv6" (.boolv ipv6) (insertY "enable" (.boolv true) d0)
              else
                insertY "enhanced-mode" (.str "fake-ip")
                  (insertY "ipv6" (.boolv ipv6) (insertY "enable" (.boolv true) d0)))) = true then
        insertY "nameserver" defaultNameservers
          (if containsKeyY "fake-ip-range"
              (if containsKeyY "enhanced-mode"
                  (insertY "ipv6" (.boolv ipv6) (insertY "enable" (.boolv true) d0)) = true then
                insertY "ipv6" (.boolv ipv6) (insertY "enable" (.boolv true) d0)
              else
                insertY "enhanced-mode" (.str "fake-ip")
                  (insertY "ipv6" (.boolv ipv6) (insertY "enable" (.boolv true) d0))) = true then
            (if containsKeyY "enhanced-mode"
                (insertY "ipv6" (.boolv ipv6) (insertY "enable" (.boolv true) d0)) = true then
              insertY "ipv6" (.boolv ipv6) (insertY "enable" (.boolv true) d0)
            else
              insertY "enhanced-mode" (.str "fake-ip")
                (insertY "ipv6" (.boolv ipv6) (insertY "enable" (.boolv true) d0)))
          else
            insertY "fake-ip-range" (.str "198.18.0.1/16")
              (if containsKeyY "enhanced-mode"
                  (insertY "ipv6" (.boolv ipv6) (insertY "enable" (.boolv true) d0)) = true then
                insertY "ipv6" (.boolv ipv6) (insertY "enable" (.boolv true) d0)
              else
                insertY "enhanced-mode" (.str "fake-ip")
                  (insertY "ipv6" (.boolv ipv6) (insertY "enable" (.boolv true) d0))))
      else
        (if containsKeyY "fake-ip-range"
            (if containsKeyY "enhanced-mode"
                (insertY "ipv6" (.boolv ipv6) (insertY "enable" (.boolv true) d0)) = true then
              insertY "ipv6" (.boolv ipv6) (insertY "enable" (.boolv true) d0)
            else
              insertY "enhanced-mode" (.str "fake-ip")
                (insertY "ipv6" (.boolv ipv6) (insertY "enable" (.boolv true) d0))) = true then
          (if containsKeyY "enhanced-mode"
              (insertY "ipv6" (.boolv ipv6) (insertY "enable" (.boolv true) d0)) = true then
            insertY "ipv6" (.boolv ipv6) (insertY "enable" (.boolv true) d0)
          else
            insertY "enhanced-mode" (.str "fake-ip")
              (insertY "ipv6" (.boolv ipv6) (insertY "enable" (.boolv true) d0)))
        else
          insertY "fake-ip-range" (.str "198.18.0.1/16")
            (if containsKeyY "enhanced-mode"
                (insertY "ipv6" (.boolv ipv6) (insertY "enable" (.boolv true) d0)) = true then
              insertY "ipv6" (.boolv ipv6) (insertY "enable" (.boolv true) d0)
            else
              insertY "enhanced-mode" (.str "fake-ip")
                (insertY "ipv6" (.boolv ipv6) (insertY "enable" (.boolv true) d0))))) = true
  · rw [if_pos hns]
    exact nsMissingOrEmpty_of_get_defaults _ _ _ _ _ (getY_insertY_self _ _ _)
  · rw [if_neg hns]
    simpa using hns

theorem dnsDefaultsFill_idem (ipv6 : Bool) (d0 : Ymap) :
    dnsDefaultsFill ipv6 (dnsDefaultsFill ipv6 d0) = dnsDefaultsFill ipv6 d0 := by
  generalize hdF : dnsDefaultsFill ipv6 d0 = dF
  have h1 : insertY "enable" (.boolv true) dF = dF :=
    insertY_getY_id _ _ _ (hdF ▸ getY_dnsDefaultsFill_enable ipv6 d0)
  have h2 : insertY "ipv6" (.boolv ipv6) dF = dF :=
    insertY_getY_id _ _ _ (hdF ▸ getY_dnsDefaultsFill_ipv6 ipv6 d0)
  have h3 : containsKeyY "enhanced-mode" dF = true :=
    hdF ▸ contains_em_dnsDefaultsFill ipv6 d0
  have h4 : containsKeyY "fake-ip-range" dF = true :=
    hdF ▸ contains_range_dnsDefaultsFill ipv6 d0
  have h5 : nsMissingOrEmpty "nameserver" dF = false :=
    hdF ▸ nsMissing_nameserver_dnsDefaultsFill ipv6 d0
  have h6 : nsMissingOrEmpty "default-nameserver" dF = false :=
    hdF ▸ nsMissing_defaultns_dnsDefaultsFill ipv6 d0
  unfold dnsDefaultsFill
  dsimp only
  rw [h1, h2, h3, if_pos rfl, h4, if_pos rfl, h5]
  simp only [Bool.false_eq_true, if_false]
  rw [h6]
  simp only [Bool.false_eq_true, if_false]

theorem emVal_dnsDefaultsFill (ipv6 : Bool) (d0 : Ymap) (h : emVal d0 = "fake-ip") :
    emVal (dnsDefaultsFill ipv6 d0) = "fake-ip" := by
  unfold emVal at h ⊢
  rw [getY_dnsDefaultsFill_em]
  cases hg : getY "enhanced-mode" d0 with
  | none => rfl
  | some v =>
    rw [hg] at h
    exact h

theorem getY_dnsFillApply_ne (ipv6 : Bool) (m : Ymap) (k : String) (h : k ≠ "dns") :
    getY k (dnsFillApply ipv6 m) = getY k m := by
  unfold dnsFillApply
  dsimp only
  exact getY_ite_then_insertY _ _ _ _ (fun hc => h hc.symm)

theorem dnsFillApply_of_get (ipv6 : Bool) (m' : Ymap) (d : Ymap)
    (hget : getY "dns" m' = some (.map d)) (hem : emVal d = "fake-ip")
    (hfix : dnsDefaultsFill ipv6 d = d) : dnsFillApply ipv6 m' = m' := by
  unfold dnsFillApply
  dsimp only
  rw [hget]
  show (if emVal d = "fake-ip" then insertY "dns" (.map (dnsDefaultsFill ipv6 d)) m'
    else m') = m'
  rw [if_pos hem, hfix]
  exact insertY_getY_id _ _ _ hget

theorem dnsFillApply_idem (ipv6 : Bool) (m : Ymap) :
    dnsFillApply ipv6 (dnsFillApply ipv6 m) = dnsFillApply ipv6 m := by
  by_cases hc : emVal (((getY "dns" m).bind Yval.asMapping).getD []) = "fake-ip"
  · have hout : dnsFillApply ipv6 m =
        insertY "dns"
          (.map (dnsDefaultsFill ipv6 (((getY "dns" m).bind Yval.asMapping).getD []))) m := by
      unfold dnsFillApply
      dsimp only
      rw [if_pos hc]
    have hget : getY "dns" (dnsFillApply ipv6 m) =
        some (.map (dnsDefaultsFill ipv6 (((getY "dns" m).bind Yval.asMapping).getD []))) := by
      rw [hout]
      exact getY_insertY_self _ _ _
    exact dnsFillApply_of_get ipv6 _ _ hget (emVal_dnsDefaultsFill ipv6 _ hc)
      (dnsDefaultsFill_idem ipv6 _)
  · have hout : dnsFillApply ipv6 m = m := by
      unfold dnsFillApply
      dsimp only
      rw [if_neg hc]
    rw [hout, hout]

/-! ### External-controller and keep-alive blocks: transport and fixpoints -/

theorem ecStepCore_none_eq (secOpt : Option String) (m : Ymap) :
    ecStepCore none secOpt m =
      removeSwapY "secret" (removeSwapY "external-controller" m) := rfl

theorem ecStepCore_some_some_eq (ec s : String) (m : Ymap) :
    ecStepCore (some ec) (some s) m =
      if ec ≠ "" then
        (if s ≠ "" then
          insertY "secret" (.str s) (insertY "external-controller" (.str ec) m)
        else removeSwapY "secret" (insertY "external-controller" (.str ec) m))
      else removeSwapY "secret" (removeSwapY "external-controller" m) := by
  unfold ecStepCore
  rfl

theorem ecStepCore_some_none_eq (ec : String) (m : Ymap) :
    ecStepCore (some ec) none m =
      if ec ≠ "" then
        removeSwapY "secret" (insertY "external-controller" (.str ec) m)
      else removeSwapY "secret" (removeSwapY "external-controller" m) := by
  unfold ecStepCore
  rfl

theorem nodup_rmrm (m : Ymap) (hnd : (keysY m).Nodup) :
    (keysY (removeSwapY "secret" (removeSwapY "external-controller" m))).Nodup :=
  nodup_keysY_removeSwapY _ _ (nodup_keysY_removeSwapY _ _ hnd)

theorem getY_rmrm_other (m : Ymap) (k : String) (hnd : (keysY m).Nodup)
    (h1 : k ≠ "external-controller") (h2 : k ≠ "secret") :
    getY k (removeSwapY "secret" (removeSwapY "external-controller" m)) = getY k m := by
  rw [getY_removeSwapY_ne _ _ _ (nodup_keysY_removeSwapY _ _ hnd) (Ne.symm h2),
    getY_removeSwapY_ne _ _ _ hnd (Ne.symm h1)]

theorem nodup_ecStepCore (ecOpt secOpt : Option String) (m : Ymap)
    (hnd : (keysY m).Nodup) : (keysY (ecStepCore ecOpt secOpt m)).Nodup := by
  cases ecOpt with
  | none =>
    rw [ecStepCore_none_eq]
    exact nodup_rmrm m hnd
  | some ec =>
    cases secOpt with
    | none =>
      rw [ecStepCore_some_none_eq]
      split_ifs
      · exact nodup_keysY_removeSwapY _ _ (nodup_keysY_insertY _ _ _ hnd)
      · exact nodup_rmrm m hnd
    | some s =>
      rw [ecStepCore_some_some_eq]
      split_ifs
      · exact nodup_keysY_insertY _ _ _ (nodup_keysY_insertY _ _ _ hnd)
      · exact nodup_keysY_removeSwapY _ _ (nodup_keysY_insertY _ _ _ hnd)
      · exact nodup_rmrm m hnd

theorem getY_ecStepCore_other (ecOpt secOpt : Option String) (m : Ymap) (k : String)
    (hnd : (keysY m).Nodup) (h1 : k ≠ "external-controller") (h2 : k ≠ "secret") :
    getY k (ecStepCore ecOpt secOpt m) = getY k m := by
  cases ecOpt with
  | none =>
    rw [ecStepCore_none_eq]
    exact getY_rmrm_other m k hnd h1 h2
  | some ec =>
    cases secOpt with
    | none =>
      rw [ecStepCore_some_none_eq]
      split_ifs
      · rw [getY_removeSwapY_ne _ _ _ (nodup_keysY_insertY _ _ _ hnd) (Ne.symm h2),
          getY_insertY_ne _ _ _ _ (Ne.symm h1)]
      · exact getY_rmrm_other m k hnd h1 h2
    | some s =>
      rw [ecStepCore_some_some_eq]
      split_ifs
      · rw [getY_insertY_ne _ _ _ _ (Ne.symm h2), getY_insertY_ne _ _ _ _ (Ne.symm h1)]
      · rw [getY_removeSwapY_ne _ _ _ (nodup_keysY_insertY _ _ _ hnd) (Ne.symm h2),
          getY_insertY_ne _ _ _ _ (Ne.symm h1)]
      · exact getY_rmrm_other m k hnd h1 h2

theorem getY_ecStepCore_ec_some (ec : String) (secOpt : Option String) (m : Ymap)
    (hnd : (keysY m).Nodup) (hec : ec ≠ "") :
    getY "external-controller" (ecStepCore (some ec) secOpt m) = some (.str ec) := by
  cases secOpt with
  | none =>
    rw [ecStepCore_some_none_eq, if_pos hec,
      getY_removeSwapY_ne _ _ _ (nodup_keysY_insertY _ _ _ hnd) (by decide),
      getY_insertY_self]
  | some s =>
    rw [ecStepCore_some_some_eq, if_pos hec]
    split_ifs
    · rw [getY_insertY_ne _ _ _ _ (by decide), getY_insertY_self]
    · rw [getY_removeSwapY_ne _ _ _ (nodup_keysY_insertY _ _ _ hnd) (by decide),
        getY_insertY_self]

theorem getY_ecStepCore_secret_some (ec s : String) (m : Ymap)
    (hec : ec ≠ "") (hs : s ≠ "") :
    getY "secret" (ecStepCore (some ec) (some s) m) = some (.str s) := by
  rw [ecStepCore_some_some_eq, if_pos hec, if_pos hs, getY_insertY_self]

theorem getY_ecStepCore_secret_none (ec : String) (secOpt : Option String) (m : Ymap)
    (hnd : (keysY m).Nodup) (hec : ec ≠ "")
    (hsec : secOpt = none ∨ secOpt = some "") :
    getY "secret" (ecStepCore (some ec) secOpt m) = none := by
  rcases hsec with rfl | rfl
  · rw [ecStepCore_some_none_eq, if_pos hec]
    exact getY_removeSwapY_self _ _ (nodup_keysY_insertY _ _ _ hnd)
  · rw [ecStepCore_some_some_eq, if_pos hec, if_neg (by simp)]
    exact getY_removeSwapY_self _ _ (nodup_keysY_insertY _ _ _ hnd)

theorem getY_ecStepCore_ec_none (ecOpt secOpt : Option String) (m : Ymap)
    (hnd : (keysY m).Nodup) (hec : ecOpt = none ∨ ecOpt = some "") :
    getY "external-controller" (ecStepCore ecOpt secOpt m) = none ∧
    getY "secret" (ecStepCore ecOpt secOpt m) = none := by
  have hbody :
      getY "external-controller"
          (removeSwapY "secret" (removeSwapY "external-controller" m)) = none ∧
      getY "secret" (removeSwapY "secret" (removeSwapY "external-controller" m)) = none := by
    constructor
    · rw [getY_removeSwapY_ne _ _ _ (nodup_keysY_removeSwapY _ _ hnd) (by decide)]
      exact getY_removeSwapY_self _ _ hnd
    · exact getY_removeSwapY_self _ _ (nodup_keysY_removeSwapY _ _ hnd)
  rcases hec with rfl | rfl
  · rw [ecStepCore_none_eq]
    exact hbody
  · cases secOpt with
    | none =>
      rw [ecStepCore_some_none_eq, if_neg (by simp)]
      exact hbody
    | some s =>
      rw [ecStepCore_some_some_eq, if_neg (by simp)]
      exact hbody

theorem ecStepCore_fixpoint (ecOpt secOpt : Option String) (m : Ymap)
    (hA : ∀ ec, ecOpt = some ec → ec ≠ "" →
      getY "external-controller" m = some (.str ec) ∧
      (∀ s, secOpt = some s → s ≠ "" → getY "secret" m = some (.str s)) ∧
      ((secOpt = none ∨ secOpt = some "") → getY "secret" m = none))
    (hB : (ecOpt = none ∨ ecOpt = some "") →
      getY "external-controller" m = none ∧ getY "secret" m = none) :
    ecStepCore ecOpt secOpt m = m := by
  cases ecOpt with
  | none =>
    obtain ⟨hec, hsec⟩ := hB (Or.inl rfl)
    rw [ecStepCore_none_eq, removeSwapY_id_of_none _ _ hec,
      removeSwapY_id_of_none _ _ hsec]
  | some ec =>
    by_cases hec0 : ec ≠ ""
    · obtain ⟨hec, hsome, hnone⟩ := hA ec rfl hec0
      cases secOpt with
      | none =>
        rw [ecStepCore_some_none_eq, if_pos hec0, insertY_getY_id _ _ _ hec]
        exact removeSwapY_id_of_none _ _ (hnone (Or.inl rfl))
      | some s =>
        rw [ecStepCore_some_some_eq, if_pos hec0]
        by_cases hs : s ≠ ""
        · rw [if_pos hs, insertY_getY_id _ _ _ hec]
          exact insertY_getY_id _ _ _ (hsome s rfl hs)
        · rw [if_neg hs, insertY_getY_id _ _ _ hec]
          refine removeSwapY_id_of_none _ _ (hnone (Or.inr ?_))
          simp only [ne_eq, not_not] at hs
          rw [hs]
    · have hec1 : ec = "" := by simpa using hec0
      subst hec1
      obtain ⟨hec, hsec⟩ := hB (Or.inr rfl)
      cases secOpt with
      | none =>
        rw [ecStepCore_some_none_eq, if_neg (by simp), removeSwapY_id_of_none _ _ hec,
          removeSwapY_id_of_none _ _ hsec]
      | some s =>
        rw [ecStepCore_some_some_eq, if_neg (by simp), removeSwapY_id_of_none _ _ hec,
          removeSwapY_id_of_none _ _ hsec]

theorem nodup_kaStepCore (enabled : Bool) (interval : Option Int) (m : Ymap)
    (hnd : (keysY m).Nodup) : (keysY (kaStepCore enabled interval m)).Nodup := by
  unfold kaStepCore
  cases enabled with
  | false => simpa using nodup_keysY_removeSwapY _ _ hnd
  | true =>
    cases interval with
    | none => simpa using hnd
    | some i => simpa using nodup_keysY_insertY _ _ _ hnd

theorem getY_kaStepCore_other (enabled : Bool) (interval : Option Int) (m : Ymap)
    (k : String) (hnd : (keysY m).Nodup) (hk : k ≠ "keep-alive-interval") :
    getY k (kaStepCore enabled interval m) = getY k m := by
  unfold kaStepCore
  cases enabled with
  | false =>
    simpa using getY_removeSwapY_ne _ _ _ hnd (Ne.symm hk)
  | true =>
    cases interval with
    | none => simp
    | some i => simpa using getY_insertY_ne _ _ _ _ (Ne.symm hk)

theorem getY_kaStepCore_some (interval : Option Int) (m : Ymap) (i : Int)
    (hi : interval = some i) :
    getY "keep-alive-interval" (kaStepCore true interval m) = some (.num i) := by
  unfold kaStepCore
  subst hi
  simpa using getY_insertY_self _ _ _

theorem getY_kaStepCore_disabled (interval : Option Int) (m : Ymap)
    (hnd : (keysY m).Nodup) :
    getY "keep-alive-interval" (kaStepCore false interval m) = none := by
  unfold kaStepCore
  simpa using getY_removeSwapY_self _ _ hnd

theorem kaStepCore_fixpoint (enabled : Bool) (interval : Option Int) (m : Ymap)
    (hsome : enabled = true → ∀ i, interval = some i →
      getY "keep-alive-interval" m = some (.num i))
    (hnone : enabled = false → getY "keep-alive-interval" m = none) :
    kaStepCore enabled interval m = m := by
  unfold kaStepCore
  cases enabled with
  | false => simpa using removeSwapY_id_of_none _ _ (hnone rfl)
  | true =>
    cases interval with
    | none => simp
    | some i => simpa using insertY_getY_id _ _ _ (hsome rfl i rfl)

/-! ### Idempotence of the clash/config injector -/

theorem injectRuntimeParamsC_fix (p : ParamsC) (mA q : Ymap)
    (tq : ∀ k, k ≠ "dns" → getY k q = getY k mA)
    (f_ecu : getY "external-controller-unix" mA = some (.str "/tmp/stelliberty_dev.sock"))
    (fA : ∀ ec, p.externalController = some ec → ec ≠ "" →
      getY "external-controller" mA = some (.str ec) ∧
      (∀ s, p.externalControllerSecret = some s → s ≠ "" →
        getY "secret" mA = some (.str s)) ∧
      ((p.externalControllerSecret = none ∨ p.externalControllerSecret = some "") →
        getY "secret" mA = none))
    (fB : (p.externalController = none ∨ p.externalController = some "") →
      getY "external-controller" mA = none ∧ getY "secret" mA = none)
    (f_mp : getY "mixed-port" mA = some (.num p.httpPort))
    (f_ba : getY "bind-address" mA =
      some (.str (if p.allowLan then "0.0.0.0" else "127.0.0.1")))
    (f_port : getY "port" mA = none)
    (f_sp : getY "socks-port" mA = none)
    (f_mode : getY "mode" mA = some (.str p.outboundMode))
    (f_ud : getY "unified-delay" mA = some (.boolv p.unifiedDelay))
    (f_ka1 : p.keepAliveEnabled = true → ∀ i, p.keepAliveInterval = some i →
      getY "keep-alive-interval" mA = some (.num i))
    (f_ka0 : p.keepAliveEnabled = false → getY "keep-alive-interval" mA = none)
    (f_tun : getY "tun" mA = some (.map (tunMapC p)))
    (h_dns : p.tunEnabled = true → dnsFillApply p.ipv6 q = q) :
    injectRuntimeParamsC p q = q := by
  have qA : ∀ ec, p.externalController = some ec → ec ≠ "" →
      getY "external-controller" q = some (.str ec) ∧
      (∀ s, p.externalControllerSecret = some s → s ≠ "" →
        getY "secret" q = some (.str s)) ∧
      ((p.externalControllerSecret = none ∨ p.externalControllerSecret = some "") →
        getY "secret" q = none) := by
    intro ec hec hec0
    obtain ⟨a, b, c⟩ := fA ec hec hec0
    exact ⟨(tq "external-controller" (by decide)).trans a,
      fun s hs hs0 => (tq "secret" (by decide)).trans (b s hs hs0),
      fun hd => (tq "secret" (by decide)).trans (c hd)⟩
  have qB : (p.externalController = none ∨ p.externalController = some "") →
      getY "external-controller" q = none ∧ getY "secret" q = none := fun hd =>
    ⟨(tq "external-controller" (by decide)).trans (fB hd).1,
     (tq "secret" (by decide)).trans (fB hd).2⟩
  unfold injectRuntimeParamsC
  dsimp only
  rw [insertY_getY_id _ _ _ ((tq "external-controller-unix" (by decide)).trans f_ecu),
    ecStepC_eq_core, ecStepCore_fixpoint _ _ _ qA qB,
    insertY_getY_id _ _ _ ((tq "mixed-port" (by decide)).trans f_mp),
    insertY_getY_id _ _ _ ((tq "bind-address" (by decide)).trans f_ba),
    removeSwapY_id_of_none _ _ ((tq "port" (by decide)).trans f_port),
    removeSwapY_id_of_none _ _ ((tq "socks-port" (by decide)).trans f_sp),
    insertY_getY_id _ _ _ ((tq "mode" (by decide)).trans f_mode),
    insertY_getY_id _ _ _ ((tq "unified-delay" (by decide)).trans f_ud),
    kaStepC_eq_core,
    kaStepCore_fixpoint _ _ _
      (fun hen i hi => (tq "keep-alive-interval" (by decide)).trans (f_ka1 hen i hi))
      (fun hen => (tq "keep-alive-interval" (by decide)).trans (f_ka0 hen)),
    insertY_getY_id _ _ _ ((tq "tun" (by decide)).trans f_tun)]
  split_ifs with ht
  · rw [injectDnsConfigC_eq_fillApply]
    exact h_dns ht
  · rfl

theorem injectRuntimeParamsC_idem (p : ParamsC) (m : Ymap) (hnd : (keysY m).Nodup) :
    injectRuntimeParamsC p (injectRuntimeParamsC p m) = injectRuntimeParamsC p m := by
  obtain ⟨m1, hm1⟩ : ∃ x, insertY "external-controller-unix"
      (.str "/tmp/stelliberty_dev.sock") m = x := ⟨_, rfl⟩
  obtain ⟨m2, hm2⟩ : ∃ x, ecStepC p m1 = x := ⟨_, rfl⟩
  obtain ⟨m3, hm3⟩ : ∃ x, insertY "mixed-port" (.num p.httpPort) m2 = x := ⟨_, rfl⟩
  obtain ⟨m4, hm4⟩ : ∃ x, insertY "bind-address"
      (.str (if p.allowLan then "0.0.0.0" else "127.0.0.1")) m3 = x := ⟨_, rfl⟩
  obtain ⟨m5, hm5⟩ : ∃ x, removeSwapY "port" m4 = x := ⟨_, rfl⟩
  obtain ⟨m6, hm6⟩ : ∃ x, removeSwapY "socks-port" m5 = x := ⟨_, rfl⟩
  obtain ⟨m7, hm7⟩ : ∃ x, insertY "mode" (.str p.outboundMode) m6 = x := ⟨_, rfl⟩
  obtain ⟨m8, hm8⟩ : ∃ x, insertY "unified-delay" (.boolv p.unifiedDelay) m7 = x := ⟨_, rfl⟩
  obtain ⟨m9, hm9⟩ : ∃ x, kaStepC p m8 = x := ⟨_, rfl⟩
  obtain ⟨m10, hm10⟩ : ∃ x, insertY "tun" (.map (tunMapC p)) m9 = x := ⟨_, rfl⟩
  have n1 : (keysY m1).Nodup := by rw [← hm1]; exact nodup_keysY_insertY _ _ _ hnd
  have n2 : (keysY m2).Nodup := by
    rw [← hm2, ecStepC_eq_core]; exact nodup_ecStepCore _ _ _ n1
  have n3 : (keysY m3).Nodup := by rw [← hm3]; exact nodup_keysY_insertY _ _ _ n2
  have n4 : (keysY m4).Nodup := by rw [← hm4]; exact nodup_keysY_insertY _ _ _ n3
  have n5 : (keysY m5).Nodup := by rw [← hm5]; exact nodup_keysY_removeSwapY _ _ n4
  have n6 : (keysY m6).Nodup := by rw [← hm6]; exact nodup_keysY_removeSwapY _ _ n5
  have n7 : (keysY m7).Nodup := by rw [← hm7]; exact nodup_keysY_insertY _ _ _ n6
  have n8 : (keysY m8).Nodup := by rw [← hm8]; exact nodup_keysY_insertY _ _ _ n7
  have s10 : ∀ k, k ≠ "tun" → getY k m10 = getY k m9 := fun k hk => by
    rw [← hm10]; exact getY_insertY_ne _ _ _ _ (Ne.symm hk)
  have s9 : ∀ k, k ≠ "keep-alive-interval" → getY k m9 = getY k m8 := fun k hk => by
    rw [← hm9, kaStepC_eq_core]; exact getY_kaStepCore_other _ _ _ _ n8 hk
  have s8 : ∀ k, k ≠ "unified-delay" → getY k m8 = getY k m7 := fun k hk => by
    rw [← hm8]; exact getY_insertY_ne _ _ _ _ (Ne.symm hk)
  have s7 : ∀ k, k ≠ "mode" → getY k m7 = getY k m6 := fun k hk => by
    rw [← hm7]; exact getY_insertY_ne _ _ _ _ (Ne.symm hk)
  have s6 : ∀ k, k ≠ "socks-port" → getY k m6 = getY k m5 := fun k hk => by
    rw [← hm6]; exact getY_removeSwapY_ne _ _ _ n5 (Ne.symm hk)
  have s5 : ∀ k, k ≠ "port" → getY k m5 = getY k m4 := fun k hk => by
    rw [← hm5]; exact getY_removeSwapY_ne _ _ _ n4 (Ne.symm hk)
  have s4 : ∀ k, k ≠ "bind-address" → getY k m4 = getY k m3 := fun k hk => by
    rw [← hm4]; exact getY_insertY_ne _ _ _ _ (Ne.symm hk)
  have s3 : ∀ k, k ≠ "mixed-port" → getY k m3 = getY k m2 := fun k hk => by
    rw [← hm3]; exact getY_insertY_ne _ _ _ _ (Ne.symm hk)
  have s2 : ∀ k, k ≠ "external-controller" → k ≠ "secret" → getY k m2 = getY k m1 :=
    fun k h1 h2 => by
      rw [← hm2, ecStepC_eq_core]; exact getY_ecStepCore_other _ _ _ _ n1 h1 h2
  have f_ecu : getY "external-controller-unix" m10 =
      some (.str "/tmp/stelliberty_dev.sock") := by
    rw [s10 "external-controller-unix" (by decide), s9 "external-controller-unix" (by decide),
      s8 "external-controller-unix" (by decide), s7 "external-controller-unix" (by decide),
      s6 "external-controller-unix" (by decide), s5 "external-controller-unix" (by decide),
      s4 "external-controller-unix" (by decide), s3 "external-controller-unix" (by decide),
      s2 "external-controller-unix" (by decide) (by decide), ← hm1]
    exact getY_insertY_self _ _ _
  have tec : getY "external-controller" m10 = getY "external-controller" m2 := by
    rw [s10 "external-controller" (by decide), s9 "external-controller" (by decide),
      s8 "external-controller" (by decide), s7 "external-controller" (by decide),
      s6 "external-controller" (by decide), s5 "external-controller" (by decide),
      s4 "external-controller" (by decide), s3 "external-controller" (by decide)]
  have tsec : getY "secret" m10 = getY "secret" m2 := by
    rw [s10 "secret" (by decide), s9 "secret" (by decide), s8 "secret" (by decide),
      s7 "secret" (by decide), s6 "secret" (by decide), s5 "secret" (by decide),
      s4 "secret" (by decide), s3 "secret" (by decide)]
  have fA : ∀ ec, p.externalController = some ec → ec ≠ "" →
      getY "external-controller" m10 = some (.str ec) ∧
      (∀ s, p.externalControllerSecret = some s → s ≠ "" →
        getY "secret" m10 = some (.str s)) ∧
      ((p.externalControllerSecret = none ∨ p.externalControllerSecret = some "") →
        getY "secret" m10 = none) := by
    intro ec hec hec0
    refine ⟨?_, ?_, ?_⟩
    · rw [tec, ← hm2, ecStepC_eq_core, hec]
      exact getY_ecStepCore_ec_some ec _ _ n1 hec0
    · intro s hs hs0
      rw [tsec, ← hm2, ecStepC_eq_core, hec, hs]
      exact getY_ecStepCore_secret_some ec s _ hec0 hs0
    · intro hd
      rw [tsec, ← hm2, ecStepC_eq_core, hec]
      exact getY_ecStepCore_secret_none ec _ _ n1 hec0 hd
  have fB : (p.externalController = none ∨ p.externalController = some "") →
      getY "external-controller" m10 = none ∧ getY "secret" m10 = none := by
    intro hd
    have hcore := getY_ecStepCore_ec_none p.externalController p.externalControllerSecret
      m1 n1 hd
    rw [← ecStepC_eq_core, hm2] at hcore
    exact ⟨tec.trans hcore.1, tsec.trans hcore.2⟩
  have f_mp : getY "mixed-port" m10 = some (.num p.httpPort) := by
    rw [s10 "mixed-port" (by decide), s9 "mixed-port" (by decide),
      s8 "mixed-port" (by decide), s7 "mixed-port" (by decide),
      s6 "mixed-port" (by decide), s5 "mixed-port" (by decide),
      s4 "mixed-port" (by decide), ← hm3]
    exact getY_insertY_self _ _ _
  have f_ba : getY "bind-address" m10 =
      some (.str (if p.allowLan then "0.0.0.0" else "127.0.0.1")) := by
    rw [s10 "bind-address" (by decide), s9 "bind-address" (by decide),
      s8 "bind-address" (by decide), s7 "bind-address" (by decide),
      s6 "bind-address" (by decide), s5 "bind-address" (by decide), ← hm4]
    exact getY_insertY_self _ _ _
  have f_port : getY "port" m10 = none := by
    rw [s10 "port" (by decide), s9 "port" (by decide), s8 "port" (by decide),
      s7 "port" (by decide), s6 "port" (by decide), ← hm5]
    exact getY_removeSwapY_self _ _ n4
  have f_sp : getY "socks-port" m10 = none := by
    rw [s10 "socks-port" (by decide), s9 "socks-port" (by decide),
      s8 "socks-port" (by decide), s7 "socks-port" (by decide), ← hm6]
    exact getY_removeSwapY_self _ _ n5
  have f_mode : getY "mode" m10 = some (.str p.outboundMode) := by
    rw [s10 "mode" (by decide), s9 "mode" (by decide), s8 "mode" (by decide), ← hm7]
    exact getY_insertY_self _ _ _
  have f_ud : getY "unified-delay" m10 = some (.boolv p.unifiedDelay) := by
    rw [s10 "unified-delay" (by decide), s9 "unified-delay" (by decide), ← hm8]
    exact getY_insertY_self _ _ _
  have f_ka1 : p.keepAliveEnabled = true → ∀ i, p.keepAliveInterval = some i →
      getY "keep-alive-interval" m10 = some (.num i) := by
    intro hen i hi
    rw [s10 "keep-alive-interval" (by decide), ← hm9, kaStepC_eq_core, hen]
    exact getY_kaStepCore_some _ _ _ hi
  have f_ka0 : p.keepAliveEnabled = false → getY "keep-alive-interval" m10 = none := by
    intro hen
    rw [s10 "keep-alive-interval" (by decide), ← hm9, kaStepC_eq_core, hen]
    exact getY_kaStepCore_disabled _ _ n8
  have f_tun : getY "tun" m10 = some (.map (tunMapC p)) := by
    rw [← hm10]
    exact getY_insertY_self _ _ _
  have hq : injectRuntimeParamsC p m =
      (if p.tunEnabled = true then dnsFillApply p.ipv6 m10 else m10) := by
    unfold injectRuntimeParamsC
    dsimp only
    rw [hm1, hm2, hm3, hm4, hm5, hm6, hm7, hm8, hm9, hm10]
    split_ifs
    · exact injectDnsConfigC_eq_fillApply p m10
    · rfl
  cases htun : p.tunEnabled with
  | true =>
    have hqq : injectRuntimeParamsC p m = dnsFillApply p.ipv6 m10 := by
      rw [hq, if_pos htun]
    rw [hqq]
    exact injectRuntimeParamsC_fix p m10 _
      (fun k hk => getY_dnsFillApply_ne _ _ _ hk)
      f_ecu fA fB f_mp f_ba f_port f_sp f_mode f_ud f_ka1 f_ka0 f_tun
      (fun _ => dnsFillApply_idem _ _)
  | false =>
    have hqq : injectRuntimeParamsC p m = m10 := by
      rw [hq, if_neg (by simp [htun])]
    rw [hqq]
    exact injectRuntimeParamsC_fix p m10 m10 (fun k _ => rfl)
      f_ecu fA fB f_mp f_ba f_port f_sp f_mode f_ud f_ka1 f_ka0 f_tun
      (fun ht => by rw [htun] at ht; exact absurd ht (by decide))

/-! ### Idempotence of the molecules injector -/

theorem injectRuntimeParamsM_ok_fix (parseYaml : String → Option Yval) (p : ParamsM)
    (mA q : Ymap)
    (tq : ∀ k, k ≠ "dns" → k ≠ "hosts" → getY k q = getY k mA)
    (f_ecu : getY "external-controller-unix" mA = some (.str "/tmp/stelliberty_dev.sock"))
    (fA : ∀ ec, p.externalController = some ec → ec ≠ "" →
      getY "external-controller" mA = some (.str ec) ∧
      (∀ s, p.externalControllerSecret = some s → s ≠ "" →
        getY "secret" mA = some (.str s)) ∧
      ((p.externalControllerSecret = none ∨ p.externalControllerSecret = some "") →
        getY "secret" mA = none))
    (fB : (p.externalController = none ∨ p.externalController = some "") →
      getY "external-controller" mA = none ∧ getY "secret" mA = none)
    (f_mp : getY "mixed-port" mA = some (.num p.mixedPort))
    (f_ba : getY "bind-address" mA =
      some (.str (if p.isAllowLanEnabled then "0.0.0.0" else "127.0.0.1")))
    (f_port : getY "port" mA = none)
    (f_sp : getY "socks-port" mA = none)
    (f_mode : getY "mode" mA = some (.str p.outboundMode))
    (f_ipv6 : getY "ipv6" mA = some (.boolv p.isIpv6Enabled))
    (f_tcp : getY "tcp-concurrent" mA = some (.boolv p.isTcpConcurrentEnabled))
    (f_ud : getY "unified-delay" mA = some (.boolv p.isUnifiedDelayEnabled))
    (f_fpm : getY "find-process-mode" mA = some (.str p.findProcessMode))
    (f_gl : getY "geodata-loader" mA = some (.str p.geodataLoader))
    (f_ll : getY "log-level" mA = some (.str p.clashCoreLogLevel))
    (f_ka1 : p.isKeepAliveEnabled = true → ∀ i, p.keepAliveInterval = some i →
      getY "keep-alive-interval" mA = some (.num i))
    (f_ka0 : p.isKeepAliveEnabled = false → getY "keep-alive-interval" mA = none)
    (f_tun : getY "tun" mA = some (.map (tunMapM p)))
    (h_ov : p.isDnsOverrideEnabled = true →
      injectUserDnsOverrideM parseYaml p q = .ok q)
    (h_dns : p.isDnsOverrideEnabled = false → p.isTunEnabled = true →
      dnsFillApply p.isIpv6Enabled q = q) :
    injectRuntimeParamsM parseYaml p q = .ok q := by
  have qA : ∀ ec, p.externalController = some ec → ec ≠ "" →
      getY "external-controller" q = some (.str ec) ∧
      (∀ s, p.externalControllerSecret = some s → s ≠ "" →
        getY "secret" q = some (.str s)) ∧
      ((p.externalControllerSecret = none ∨ p.externalControllerSecret = some "") →
        getY "secret" q = none) := by
    intro ec hec hec0
    obtain ⟨a, b, c⟩ := fA ec hec hec0
    exact ⟨(tq "external-controller" (by decide) (by decide)).trans a,
      fun s hs hs0 => (tq "secret" (by decide) (by decide)).trans (b s hs hs0),
      fun hd => (tq "secret" (by decide) (by decide)).trans (c hd)⟩
  have qB : (p.externalController = none ∨ p.externalController = some "") →
      getY "external-controller" q = none ∧ getY "secret" q = none := fun hd =>
    ⟨(tq "external-controller" (by decide) (by decide)).trans (fB hd).1,
     (tq "secret" (by decide) (by decide)).trans (fB hd).2⟩
  unfold injectRuntimeParamsM
  dsimp only
  rw [insertY_getY_id _ _ _
      ((tq "external-controller-unix" (by decide) (by decide)).trans f_ecu),
    ecStepM_eq_core, ecStepCore_fixpoint _ _ _ qA qB,
    insertY_getY_id _ _ _ ((tq "mixed-port" (by decide) (by decide)).trans f_mp),
    insertY_getY_id _ _ _ ((tq "bind-address" (by decide) (by decide)).trans f_ba),
    removeSwapY_id_of_none _ _ ((tq "port" (by decide) (by decide)).trans f_port),
    removeSwapY_id_of_none _ _ ((tq "socks-port" (by decide) (by decide)).trans f_sp),
    insertY_getY_id _ _ _ ((tq "mode" (by decide) (by decide)).trans f_mode),
    insertY_getY_id _ _ _ ((tq "ipv6" (by decide) (by decide)).trans f_ipv6),
    insertY_getY_id _ _ _ ((tq "tcp-concurrent" (by decide) (by decide)).trans f_tcp),
    insertY_getY_id _ _ _ ((tq "unified-delay" (by decide) (by decide)).trans f_ud),
    insertY_getY_id _ _ _ ((tq "find-process-mode" (by decide) (by decide)).trans f_fpm),
    insertY_getY_id _ _ _ ((tq "geodata-loader" (by decide) (by decide)).trans f_gl),
    insertY_getY_id _ _ _ ((tq "log-level" (by decide) (by decide)).trans f_ll),
    kaStepM_eq_core,
    kaStepCore_fixpoint _ _ _
      (fun hen i hi =>
        (tq "keep-alive-interval" (by decide) (by decide)).trans (f_ka1 hen i hi))
      (fun hen => (tq "keep-alive-interval" (by decide) (by decide)).trans (f_ka0 hen)),
    insertY_getY_id _ _ _ ((tq "tun" (by decide) (by decide)).trans f_tun)]
  split_ifs with hov ht
  · exact h_ov hov
  · rw [injectDnsConfigM_eq_fillApply, h_dns (by simpa using hov) ht]
  · rfl

theorem injectRuntimeParamsM_idem (parseYaml : String → Option Yval) (p : ParamsM)
    (m q : Ymap) (hnd : (keysY m).Nodup)
    (h : injectRuntimeParamsM parseYaml p m = .ok q) :
    injectRuntimeParamsM parseYaml p q = .ok q := by
  obtain ⟨m1, hm1⟩ : ∃ x, insertY "external-controller-unix"
      (.str "/tmp/stelliberty_dev.sock") m = x := ⟨_, rfl⟩
  obtain ⟨m2, hm2⟩ : ∃ x, ecStepM p m1 = x := ⟨_, rfl⟩
  obtain ⟨m3, hm3⟩ : ∃ x, insertY "mixed-port" (.num p.mixedPort) m2 = x := ⟨_, rfl⟩
  obtain ⟨m4, hm4⟩ : ∃ x, insertY "bind-address"
      (.str (if p.isAllowLanEnabled then "0.0.0.0" else "127.0.0.1")) m3 = x := ⟨_, rfl⟩
  obtain ⟨m5, hm5⟩ : ∃ x, removeSwapY "port" m4 = x := ⟨_, rfl⟩
  obtain ⟨m6, hm6⟩ : ∃ x, removeSwapY "socks-port" m5 = x := ⟨_, rfl⟩
  obtain ⟨m7, hm7⟩ : ∃ x, insertY "mode" (.str p.outboundMode) m6 = x := ⟨_, rfl⟩
  obtain ⟨m8, hm8⟩ : ∃ x, insertY "ipv6" (.boolv p.isIpv6Enabled) m7 = x := ⟨_, rfl⟩
  obtain ⟨m9, hm9⟩ : ∃ x, insertY "tcp-concurrent"
      (.boolv p.isTcpConcurrentEnabled) m8 = x := ⟨_, rfl⟩
  obtain ⟨m10, hm10⟩ : ∃ x, insertY "unified-delay"
      (.boolv p.isUnifiedDelayEnabled) m9 = x := ⟨_, rfl⟩
  obtain ⟨m11, hm11⟩ : ∃ x, insertY "find-process-mode"
      (.str p.findProcessMode) m10 = x := ⟨_, rfl⟩
  obtain ⟨m12, hm12⟩ : ∃ x, insertY "geodata-loader"
      (.str p.geodataLoader) m11 = x := ⟨_, rfl⟩
  obtain ⟨m13, hm13⟩ : ∃ x, insertY "log-level"
      (.str p.clashCoreLogLevel) m12 = x := ⟨_, rfl⟩
  obtain ⟨m14, hm14⟩ : ∃ x, kaStepM p m13 = x := ⟨_, rfl⟩
  obtain ⟨m15, hm15⟩ : ∃ x, insertY "tun" (.map (tunMapM p)) m14 = x := ⟨_, rfl⟩
  have n1 : (keysY m1).Nodup := by rw [← hm1]; exact nodup_keysY_insertY _ _ _ hnd
  have n2 : (keysY m2).Nodup := by
    rw [← hm2, ecStepM_eq_core]; exact nodup_ecStepCore _ _ _ n1
  have n3 : (keysY m3).Nodup := by rw [← hm3]; exact nodup_keysY_insertY _ _ _ n2
  have n4 : (keysY m4).Nodup := by rw [← hm4]; exact nodup_keysY_insertY _ _ _ n3
  have n5 : (keysY m5).Nodup := by rw [← hm5]; exact nodup_keysY_removeSwapY _ _ n4
  have n6 : (keysY m6).Nodup := by rw [← hm6]; exact nodup_keysY_removeSwapY _ _ n5
  have n7 : (keysY m7).Nodup := by rw [← hm7]; exact nodup_keysY_insertY _ _ _ n6
  have n8 : (keysY m8).Nodup := by rw [← hm8]; exact nodup_keysY_insertY _ _ _ n7
  have n9 : (keysY m9).Nodup := by rw [← hm9]; exact nodup_keysY_insertY _ _ _ n8
  have n10 : (keysY m10).Nodup := by rw [← hm10]; exact nodup_keysY_insertY _ _ _ n9
  have n11 : (keysY m11).Nodup := by rw [← hm11]; exact nodup_keysY_insertY _ _ _ n10
  have n12 : (keysY m12).Nodup := by rw [← hm12]; exact nodup_keysY_insertY _ _ _ n11
  have n13 : (keysY m13).Nodup := by rw [← hm13]; exact nodup_keysY_insertY _ _ _ n12
  have s15 : ∀ k, k ≠ "tun" → getY k m15 = getY k m14 := fun k hk => by
    rw [← hm15]; exact getY_insertY_ne _ _ _ _ (Ne.symm hk)
  have s14 : ∀ k, k ≠ "keep-alive-interval" → getY k m14 = getY k m13 := fun k hk => by
    rw [← hm14, kaStepM_eq_core]; exact getY_kaStepCore_other _ _ _ _ n13 hk
  have s13 : ∀ k, k ≠ "log-level" → getY k m13 = getY k m12 := fun k hk => by
    rw [← hm13]; exact getY_insertY_ne _ _ _ _ (Ne.symm hk)
  have s12 : ∀ k, k ≠ "geodata-loader" → getY k m12 = getY k m11 := fun k hk => by
    rw [← hm12]; exact getY_insertY_ne _ _ _ _ (Ne.symm hk)
  have s11 : ∀ k, k ≠ "find-process-mode" → getY k m11 = getY k m10 := fun k hk => by
    rw [← hm11]; exact getY_insertY_ne _ _ _ _ (Ne.symm hk)
  have s10 : ∀ k, k ≠ "unified-delay" → getY k m10 = getY k m9 := fun k hk => by
    rw [← hm10]; exact getY_insertY_ne _ _ _ _ (Ne.symm hk)
  have s9 : ∀ k, k ≠ "tcp-concurrent" → getY k m9 = getY k m8 := fun k hk => by
    rw [← hm9]; exact getY_insertY_ne _ _ _ _ (Ne.symm hk)
  have s8 : ∀ k, k ≠ "ipv6" → getY k m8 = getY k m7 := fun k hk => by
    rw [← hm8]; exact getY_insertY_ne _ _ _ _ (Ne.symm hk)
  have s7 : ∀ k, k ≠ "mode" → getY k m7 = getY k m6 := fun k hk => by
    rw [← hm7]; exact getY_insertY_ne _ _ _ _ (Ne.symm hk)
  have s6 : ∀ k, k ≠ "socks-port" → getY k m6 = getY k m5 := fun k hk => by
    rw [← hm6]; exact getY_removeSwapY_ne _ _ _ n5 (Ne.symm hk)
  have s5 : ∀ k, k ≠ "port" → getY k m5 = getY k m4 := fun k hk => by
    rw [← hm5]; exact getY_removeSwapY_ne _ _ _ n4 (Ne.symm hk)
  have s4 : ∀ k, k ≠ "bind-address" → getY k m4 = getY k m3 := fun k hk => by
    rw [← hm4]; exact getY_insertY_ne _ _ _ _ (Ne.symm hk)
  have s3 : ∀ k, k ≠ "mixed-port" → getY k m3 = getY k m2 := fun k hk => by
    rw [← hm3]; exact getY_insertY_ne _ _ _ _ (Ne.symm hk)
  have s2 : ∀ k, k ≠ "external-controller" → k ≠ "secret" → getY k m2 = getY k m1 :=
    fun k h1 h2 => by
      rw [← hm2, ecStepM_eq_core]; exact getY_ecStepCore_other _ _ _ _ n1 h1 h2
  have f_ecu : getY "external-controller-unix" m15 =
      some (.str "/tmp/stelliberty_dev.sock") := by
    rw [s15 "external-controller-unix" (by decide),
      s14 "external-controller-unix" (by decide),
      s13 "external-controller-unix" (by decide),
      s12 "external-controller-unix" (by decide),
      s11 "external-controller-unix" (by decide),
      s10 "external-controller-unix" (by decide),
      s9 "external-controller-unix" (by decide),
      s8 "external-controller-unix" (by decide),
      s7 "external-controller-unix" (by decide),
      s6 "external-controller-unix" (by decide),
      s5 "external-controller-unix" (by decide),
      s4 "external-controller-unix" (by decide),
      s3 "external-controller-unix" (by decide),
      s2 "external-controller-unix" (by decide) (by decide),
      ← hm1]
    exact getY_insertY_self _ _ _
  have tec : getY "external-controller" m15 = getY "external-controller" m2 := by
    rw [s15 "external-controller" (by decide),
      s14 "external-controller" (by decide),
      s13 "external-controller" (by decide),
      s12 "external-controller" (by decide),
      s11 "external-controller" (by decide),
      s10 "external-controller" (by decide),
      s9 "external-controller" (by decide),
      s8 "external-controller" (by decide),
      s7 "external-controller" (by decide),
      s6 "external-controller" (by decide),
      s5 "external-controller" (by decide),
      s4 "external-controller" (by decide),
      s3 "external-controller" (by decide)]
  have tsec : getY "secret" m15 = getY "secret" m2 := by
    rw [s15 "secret" (by decide),
      s14 "secret" (by decide),
      s13 "secret" (by decide),
      s12 "secret" (by decide),
      s11 "secret" (by decide),
      s10 "secret" (by decide),
      s9 "secret" (by decide),
      s8 "secret" (by decide),
      s7 "secret" (by decide),
      s6 "secret" (by decide),
      s5 "secret" (by decide),
      s4 "secret" (by decide),
      s3 "secret" (by decide)]
  have fA : ∀ ec, p.externalController = some ec → ec ≠ "" →
      getY "external-controller" m15 = some (.str ec) ∧
      (∀ s, p.externalControllerSecret = some s → s ≠ "" →
        getY "secret" m15 = some (.str s)) ∧
      ((p.externalControllerSecret = none ∨ p.externalControllerSecret = some "") →
        getY "secret" m15 = none) := by
    intro ec hec hec0
    refine ⟨?_, ?_, ?_⟩
    · rw [tec, ← hm2, ecStepM_eq_core, hec]
      exact getY_ecStepCore_ec_some ec _ _ n1 hec0
    · intro s hs hs0
      rw [tsec, ← hm2, ecStepM_eq_core, hec, hs]
      exact getY_ecStepCore_secret_some ec s _ hec0 hs0
    · intro hd
      rw [tsec, ← hm2, ecStepM_eq_core, hec]
      exact getY_ecStepCore_secret_none ec _ _ n1 hec0 hd
  have fB : (p.externalController = none ∨ p.externalController = some "") →
      getY "external-controller" m15 = none ∧ getY "secret" m15 = none := by
    intro hd
    have hcore := getY_ecStepCore_ec_none p.externalController p.externalControllerSecret
      m1 n1 hd
    rw [← ecStepM_eq_core, hm2] at hcore
    exact ⟨tec.trans hcore.1, tsec.trans hcore.2⟩
  have f_mp : getY "mixed-port" m15 = some (.num p.mixedPort) := by
    rw [s15 "mixed-port" (by decide),
      s14 "mixed-port" (by decide),
      s13 "mixed-port" (by decide),
      s12 "mixed-port" (by decide),
      s11 "mixed-port" (by decide),
      s10 "mixed-port" (by decide),
      s9 "mixed-port" (by decide),
      s8 "mixed-port" (by decide),
      s7 "mixed-port" (by decide),
      s6 "mixed-port" (by decide),
      s5 "mixed-port" (by decide),
      s4 "mixed-port" (by decide),
      ← hm3]
    exact getY_insertY_self _ _ _
  have f_ba : getY "bind-address" m15 = some (.str (if p.isAllowLanEnabled then "0.0.0.0" else "127.0.0.1")) := by
    rw [s15 "bind-address" (by decide),
      s14 "bind-address" (by decide),
      s13 "bind-address" (by decide),
      s12 "bind-address" (by decide),
      s11 "bind-address" (by decide),
      s10 "bind-address" (by decide),
      s9 "bind-address" (by decide),
      s8 "bind-address" (by decide),
      s7 "bind-address" (by decide),
      s6 "bind-address" (by decide),
      s5 "bind-address" (by decide),
      ← hm4]
    exact getY_insertY_self _ _ _
  have f_port : getY "port" m15 = none := by
    rw [s15 "port" (by decide),
      s14 "port" (by decide),
      s13 "port" (by decide),
      s12 "port" (by decide),
      s11 "port" (by decide),
      s10 "port" (by decide),
      s9 "port" (by decide),
      s8 "port" (by decide),
      s7 "port" (by decide),
      s6 "port" (by decide),
      ← hm5]
    exact getY_removeSwapY_self _ _ n4
  have f_sp : getY "socks-port" m15 = none := by
    rw [s15 "socks-port" (by decide),
      s14 "socks-port" (by decide),
      s13 "socks-port" (by decide),
      s12 "socks-port" (by decide),
      s11 "socks-port" (by decide),
      s10 "socks-port" (by decide),
      s9 "socks-port" (by decide),
      s8 "socks-port" (by decide),
      s7 "socks-port" (by decide),
      ← hm6]
    exact getY_removeSwapY_self _ _ n5
  have f_mode : getY "mode" m15 = some (.str p.outboundMode) := by
    rw [s15 "mode" (by decide),
      s14 "mode" (by decide),
      s13 "mode" (by decide),
      s12 "mode" (by decide),
      s11 "mode" (by decide),
      s10 "mode" (by decide),
      s9 "mode" (by decide),
      s8 "mode" (by decide),
      ← hm7]
    exact getY_insertY_self _ _ _
  have f_ipv6 : getY "ipv6" m15 = some (.boolv p.isIpv6Enabled) := by
    rw [s15 "ipv6" (by decide),
      s14 "ipv6" (by decide),
      s13 "ipv6" (by decide),
      s12 "ipv6" (by decide),
      s11 "ipv6" (by decide),
      s10 "ipv6" (by decide),
      s9 "ipv6" (by decide),
      ← hm8]
    exact getY_insertY_self _ _ _
  have f_tcp : getY "tcp-concurrent" m15 = some (.boolv p.isTcpConcurrentEnabled) := by
    rw [s15 "tcp-concurrent" (by decide),
      s14 "tcp-concurrent" (by decide),
      s13 "tcp-concurrent" (by decide),
      s12 "tcp-concurrent" (by decide),
      s11 "tcp-concurrent" (by decide),
      s10 "tcp-concurrent" (by decide),
      ← hm9]
    exact getY_insertY_self _ _ _
  have f_ud : getY "unified-delay" m15 = some (.boolv p.isUnifiedDelayEnabled) := by
    rw [s15 "unified-delay" (by decide),
      s14 "unified-delay" (by decide),
      s13 "unified-delay" (by decide),
      s12 "unified-delay" (by decide),
      s11 "unified-delay" (by decide),
      ← hm10]
    exact getY_insertY_self _ _ _
  have f_fpm : getY "find-process-mode" m15 = some (.str p.findProcessMode) := by
    rw [s15 "find-process-mode" (by decide),
      s14 "find-process-mode" (by decide),
      s13 "find-process-mode" (by decide),
      s12 "find-process-mode" (by decide),
      ← hm11]
    exact getY_insertY_self _ _ _
  have f_gl : getY "geodata-loader" m15 = some (.str p.geodataLoader) := by
    rw [s15 "geodata-loader" (by decide),
      s14 "geodata-loader" (by decide),
      s13 "geodata-loader" (by decide),
      ← hm12]
    exact getY_insertY_self _ _ _
  have f_ll : getY "log-level" m15 = some (.str p.clashCoreLogLevel) := by
    rw [s15 "log-level" (by decide),
      s14 "log-level" (by decide),
      ← hm13]
    exact getY_insertY_self _ _ _
  have f_ka1 : p.isKeepAliveEnabled = true → ∀ i, p.keepAliveInterval = some i →
      getY "keep-alive-interval" m15 = some (.num i) := by
    intro hen i hi
    rw [s15 "keep-alive-interval" (by decide), ← hm14, kaStepM_eq_core, hen]
    exact getY_kaStepCore_some _ _ _ hi
  have f_ka0 : p.isKeepAliveEnabled = false →
      getY "keep-alive-interval" m15 = none := by
    intro hen
    rw [s15 "keep-alive-interval" (by decide), ← hm14, kaStepM_eq_core, hen]
    exact getY_kaStepCore_disabled _ _ n13
  have f_tun : getY "tun" m15 = some (.map (tunMapM p)) := by
    rw [← hm15]
    exact getY_insertY_self _ _ _
  have hq : injectRuntimeParamsM parseYaml p m =
      (if p.isDnsOverrideEnabled = true then injectUserDnsOverrideM parseYaml p m15
       else if p.isTunEnabled = true then .ok (injectDnsConfigM p m15)
       else .ok m15) := by
    unfold injectRuntimeParamsM
    dsimp only
    rw [hm1, hm2, hm3, hm4, hm5, hm6, hm7, hm8, hm9, hm10, hm11, hm12, hm13, hm14, hm15]
  rw [hq] at h
  cases hov : p.isDnsOverrideEnabled with
  | false =>
    rw [if_neg (by simp [hov])] at h
    cases htun : p.isTunEnabled with
    | true =>
      rw [if_pos htun, injectDnsConfigM_eq_fillApply] at h
      have hqe : dnsFillApply p.isIpv6Enabled m15 = q := by simpa using h
      exact injectRuntimeParamsM_ok_fix parseYaml p m15 q
        (fun k hk _ => by rw [← hqe]; exact getY_dnsFillApply_ne _ _ _ hk)
        f_ecu fA fB f_mp f_ba f_port f_sp f_mode f_ipv6 f_tcp f_ud f_fpm f_gl f_ll
        f_ka1 f_ka0 f_tun
        (fun hov2 => by rw [hov] at hov2; exact absurd hov2 (by decide))
        (fun _ _ => by rw [← hqe]; exact dnsFillApply_idem _ _)
    | false =>
      rw [if_neg (by simp [htun])] at h
      have hqe : m15 = q := by simpa using h
      exact injectRuntimeParamsM_ok_fix parseYaml p m15 q
        (fun k _ _ => by rw [← hqe])
        f_ecu fA fB f_mp f_ba f_port f_sp f_mode f_ipv6 f_tcp f_ud f_fpm f_gl f_ll
        f_ka1 f_ka0 f_tun
        (fun hov2 => by rw [hov] at hov2; exact absurd hov2 (by decide))
        (fun _ htun2 => by rw [htun] at htun2; exact absurd htun2 (by decide))
  | true =>
    rw [if_pos hov] at h
    cases hc : p.dnsOverrideContent with
    | none =>
      unfold injectUserDnsOverrideM at h
      simp only [hc] at h
      have hqe : m15 = q := by simpa using h
      exact injectRuntimeParamsM_ok_fix parseYaml p m15 q
        (fun k _ _ => by rw [← hqe])
        f_ecu fA fB f_mp f_ba f_port f_sp f_mode f_ipv6 f_tcp f_ud f_fpm f_gl f_ll
        f_ka1 f_ka0 f_tun
        (fun _ => by unfold injectUserDnsOverrideM; simp only [hc])
        (fun hov2 _ => by rw [hov] at hov2; exact absurd hov2 (by decide))
    | some content =>
      by_cases hcne : content = ""
      · subst hcne
        unfold injectUserDnsOverrideM at h
        simp only [hc] at h
        rw [if_neg (by simp)] at h
        have hqe : m15 = q := by simpa using h
        exact injectRuntimeParamsM_ok_fix parseYaml p m15 q
          (fun k _ _ => by rw [← hqe])
          f_ecu fA fB f_mp f_ba f_port f_sp f_mode f_ipv6 f_tcp f_ud f_fpm f_gl f_ll
          f_ka1 f_ka0 f_tun
          (fun _ => by
            unfold injectUserDnsOverrideM
            simp only [hc]
            rw [if_neg (by simp)])
          (fun hov2 _ => by rw [hov] at hov2; exact absurd hov2 (by decide))
      · unfold injectUserDnsOverrideM at h
        simp only [hc] at h
        rw [if_pos hcne] at h
        cases hp : parseYaml content with
        | none =>
          simp only [hp] at h
          exact Except.noConfusion h
        | some userCfg =>
          simp only [hp] at h
          cases hum : userCfg.asMapping with
          | none =>
            simp only [hum] at h
            exact Except.noConfusion h
          | some um =>
            simp only [hum] at h
            cases hdns : getY "dns" um with
            | some dv =>
              cases hhosts : getY "hosts" um with
              | some hv =>
                simp only [hdns, hhosts] at h
                have hqe : insertY "hosts" hv (insertY "dns" dv m15) = q := by
                  simpa using h
                have qdns : getY "dns" q = some dv := by
                  rw [← hqe, getY_insertY_ne "hosts" "dns" _ _ (by decide)]
                  exact getY_insertY_self _ _ _
                have qhosts : getY "hosts" q = some hv := by
                  rw [← hqe]
                  exact getY_insertY_self _ _ _
                exact injectRuntimeParamsM_ok_fix parseYaml p m15 q
                  (fun k h1 h2 => by
                    rw [← hqe, getY_insertY_ne "hosts" k _ _ (Ne.symm h2),
                      getY_insertY_ne "dns" k _ _ (Ne.symm h1)])
                  f_ecu fA fB f_mp f_ba f_port f_sp f_mode f_ipv6 f_tcp f_ud f_fpm
                  f_gl f_ll f_ka1 f_ka0 f_tun
                  (fun _ => by
                    unfold injectUserDnsOverrideM
                    simp only [hc]
                    rw [if_pos hcne]
                    simp only [hp, hum, hdns, hhosts]
                    rw [insertY_getY_id _ _ _ qdns, insertY_getY_id _ _ _ qhosts])
                  (fun hov2 _ => by rw [hov] at hov2; exact absurd hov2 (by decide))
              | none =>
                simp only [hdns, hhosts] at h
                have hqe : insertY "dns" dv m15 = q := by simpa using h
                have qdns : getY "dns" q = some dv := by
                  rw [← hqe]
                  exact getY_insertY_self _ _ _
                exact injectRuntimeParamsM_ok_fix parseYaml p m15 q
                  (fun k h1 _ => by
                    rw [← hqe, getY_insertY_ne "dns" k _ _ (Ne.symm h1)])
                  f_ecu fA fB f_mp f_ba f_port f_sp f_mode f_ipv6 f_tcp f_ud f_fpm
                  f_gl f_ll f_ka1 f_ka0 f_tun
                  (fun _ => by
                    unfold injectUserDnsOverrideM
                    simp only [hc]
                    rw [if_pos hcne]
                    simp only [hp, hum, hdns, hhosts]
                    rw [insertY_getY_id _ _ _ qdns])
                  (fun hov2 _ => by rw [hov] at hov2; exact absurd hov2 (by decide))
            | none =>
              cases hhosts : getY "hosts" um with
              | some hv =>
                simp only [hdns, hhosts] at h
                have hqe : insertY "hosts" hv m15 = q := by simpa using h
                have qhosts : getY "hosts" q = some hv := by
                  rw [← hqe]
                  exact getY_insertY_self _ _ _
                exact injectRuntimeParamsM_ok_fix parseYaml p m15 q
                  (fun k _ h2 => by
                    rw [← hqe, getY_insertY_ne "hosts" k _ _ (Ne.symm h2)])
                  f_ecu fA fB f_mp f_ba f_port f_sp f_mode f_ipv6 f_tcp f_ud f_fpm
                  f_gl f_ll f_ka1 f_ka0 f_tun
                  (fun _ => by
                    unfold injectUserDnsOverrideM
                    simp only [hc]
                    rw [if_pos hcne]
                    simp only [hp, hum, hdns, hhosts]
                    rw [insertY_getY_id _ _ _ qhosts])
                  (fun hov2 _ => by rw [hov] at hov2; exact absurd hov2 (by decide))
              | none =>
                simp only [hdns, hhosts] at h
                have hqe : m15 = q := by simpa using h
                exact injectRuntimeParamsM_ok_fix parseYaml p m15 q
                  (fun k _ _ => by rw [← hqe])
                  f_ecu fA fB f_mp f_ba f_port f_sp f_mode f_ipv6 f_tcp f_ud f_fpm
                  f_gl f_ll f_ka1 f_ka0 f_tun
                  (fun _ => by
                    unfold injectUserDnsOverrideM
                    simp only [hc]
                    rw [if_pos hcne]
                    simp only [hp, hum, hdns, hhosts])
                  (fun hov2 _ => by rw [hov] at hov2; exact absurd hov2 (by decide))

/-- **C6.** Both `inject_runtime_params` implementations (the
molecules/clash_config module and the hub clash/config module) are idempotent:
on any root mapping, running the injector on its own output returns that output
unchanged, for every fixed parameter record and every YAML parse oracle.  Since
serialisation of equal mapping trees is byte-equal, this is the claimed
byte-equality after canonical re-serialisation.  The root mappings are
duplicate-key free (`(keysY m).Nodup`), which holds of every mapping the YAML
parser can produce (`serde_yaml_ng` rejects duplicate keys). -/
theorem inject_runtime_params_idempotent :
    (∀ (parseYaml : String → Option Yval) (p : ParamsM) (m q : Ymap),
      (keysY m).Nodup → injectRuntimeParamsM parseYaml p m = .ok q →
      injectRuntimeParamsM parseYaml p q = .ok q) ∧
    (∀ (p : ParamsC) (m : Ymap), (keysY m).Nodup →
      injectRuntimeParamsC p (injectRuntimeParamsC p m) = injectRuntimeParamsC p m) :=
  ⟨fun parseYaml p m q hnd h => injectRuntimeParamsM_idem parseYaml p m q hnd h,
   fun p m hnd => injectRuntimeParamsC_idem p m hnd⟩

/-- Witness for C6 at concrete inputs: the empty root mapping with the
parameter records `pM0` and `pC0`; the first molecules run produces `qM0` and
the second run returns it unchanged, and the clash/config injector's output on
the empty root is a fixpoint. -/
theorem inject_runtime_params_idempotent_witness :
    (keysY ([] : Ymap)).Nodup ∧
    injectRuntimeParamsM (fun _ => none) pM0 [] = .ok qM0 ∧
    injectRuntimeParamsM (fun _ => none) pM0 qM0 = .ok qM0 ∧
    injectRuntimeParamsC pC0 (injectRuntimeParamsC pC0 []) =
      injectRuntimeParamsC pC0 [] :=
  ⟨by decide, by rfl,
   inject_runtime_params_idempotent.1 (fun _ => none) pM0 [] qM0 (by decide) (by rfl),
   inject_runtime_params_idempotent.2 pC0 [] (by decide)⟩
